import Mathlib

/-!
4D-cube: the tesseract puzzle and the inner Rubik cube.

A shallow embedding of the discrete state model of `tesseract_model.cpp` and
`rubik_cube.cpp` and of the rotation matrices of `math_4d.cpp`, followed by theorems
about the move algebra.

Conventions of the embedding.

* A C++ `int` is a Lean `Int`.  The only arithmetic in the model is the index
  arithmetic of `getLayerIndices`; whenever that arithmetic could leave the range
  of a 32-bit `int` the resulting index is far outside `0..15`, so the access is
  out of bounds in any case.
* A fixed-size array `T a[n]` is a function `Fin n → T`; the assignment
  `a[i] = v` is `Function.update a i v`.
* An access `vertices_[k]` with `k` outside `0..15` is undefined behaviour in
  C++; operations that index `vertices_` with a computed `int` return an
  `Option`, and `none` stands for such an out-of-bounds access.
* A `std::string` is a Lean `String`, read as the list of its characters.  The
  tesseract parser only compares `move[0..3]` with ASCII characters and a byte
  of a multi-byte character matches none of them, so reading characters instead
  of bytes gives the same verdict and the same move on every text.
-/

/-! ## Tesseract model (`tesseract_model.h`, `tesseract_model.cpp`) -/

/-- Cell colour `C_X_POS` of `enum CellColor`. -/
def C_X_POS : Int := 0
/-- Cell colour `C_X_NEG` of `enum CellColor`. -/
def C_X_NEG : Int := 1
/-- Cell colour `C_Y_POS` of `enum CellColor`. -/
def C_Y_POS : Int := 2
/-- Cell colour `C_Y_NEG` of `enum CellColor`. -/
def C_Y_NEG : Int := 3
/-- Cell colour `C_Z_POS` of `enum CellColor`. -/
def C_Z_POS : Int := 4
/-- Cell colour `C_Z_NEG` of `enum CellColor`. -/
def C_Z_NEG : Int := 5
/-- Cell colour `C_W_POS` of `enum CellColor`. -/
def C_W_POS : Int := 6
/-- Cell colour `C_W_NEG` of `enum CellColor`. -/
def C_W_NEG : Int := 7

/-- Rotation plane `PLANE_XY` of `enum RotationPlane`. -/
def PLANE_XY : Int := 0
/-- Rotation plane `PLANE_XZ` of `enum RotationPlane`. -/
def PLANE_XZ : Int := 1
/-- Rotation plane `PLANE_XW` of `enum RotationPlane`. -/
def PLANE_XW : Int := 2
/-- Rotation plane `PLANE_YZ` of `enum RotationPlane`. -/
def PLANE_YZ : Int := 3
/-- Rotation plane `PLANE_YW` of `enum RotationPlane`. -/
def PLANE_YW : Int := 4
/-- Rotation plane `PLANE_ZW` of `enum RotationPlane`. -/
def PLANE_ZW : Int := 5

/-- The struct `Vertex4D`: four colour slots `int colors[4]`. -/
@[ext]
structure Vertex4D where
  colors : Fin 4 → Int

/-- The class `TesseractPuzzle`: its only data member is `Vertex4D vertices_[16]`. -/
@[ext]
structure TesseractPuzzle where
  vertices_ : Fin 16 → Vertex4D

/-- The loop `for (int i = 0; i < n; i++) body` acting on a state `s`. -/
def forLoop {σ : Type} (n : Nat) (body : Fin n → σ → σ) (s : σ) : σ :=
  (List.finRange n).foldl (fun st i => body i st) s

/-- The call `std::swap(v.colors[s0], v.colors[s1])` on a vertex `v`. -/
def Vertex4D.swapColors (v : Vertex4D) (s0 s1 : Fin 4) : Vertex4D :=
  ⟨Function.update (Function.update v.colors s0 (v.colors s1)) s1 (v.colors s0)⟩

/-- An `int` used as a subscript of `vertices_[16]`: `none` when it is out of bounds. -/
def vertexSlot (k : Int) : Option (Fin 16) :=
  if h : 0 ≤ k ∧ k < 16 then some ⟨k.toNat, by omega⟩ else none

/-- The static function `getLayerIndices`: the four vertex indices of `(plane, layer)`,
as the `int indices[4]` out-parameter.  The C++ `/` and `%` truncate toward zero. -/
def getLayerIndices (plane layer : Int) : Fin 4 → Int :=
  let a := Int.tdiv layer 2
  let b := Int.tmod layer 2
  if plane = PLANE_XY then ![a*2+b, 8+a*2+b, 12+a*2+b, 4+a*2+b]
  else if plane = PLANE_XZ then ![a*4+b, 8+a*4+b, 10+a*4+b, a*4+2+b]
  else if plane = PLANE_XW then ![a*4+b*2, 8+a*4+b*2, 8+a*4+b*2+1, a*4+b*2+1]
  else if plane = PLANE_YZ then ![a*8+b, a*8+4+b, a*8+6+b, a*8+2+b]
  else if plane = PLANE_YW then ![a*8+b*2, a*8+4+b*2, a*8+6+b*2, a*8+2+b*2]
  else if plane = PLANE_ZW then ![a*8+b*4, a*8+b*4+2, a*8+b*4+3, a*8+b*4+1]
  else ![0, 1, 2, 3]

/-- The static function `getSlotSwap`: the two slots `(s0, s1)` exchanged for a plane. -/
def getSlotSwap (plane : Int) : Fin 4 × Fin 4 :=
  if plane = PLANE_XY then (0, 1)
  else if plane = PLANE_XZ then (0, 2)
  else if plane = PLANE_XW then (0, 3)
  else if plane = PLANE_YZ then (1, 2)
  else if plane = PLANE_YW then (1, 3)
  else if plane = PLANE_ZW then (2, 3)
  else (0, 1)

namespace TesseractPuzzle

/-- The table `solved[16][4]` of `initSolved`. -/
def solvedTable : Fin 16 → Fin 4 → Int :=
  ![![C_X_NEG, C_Y_NEG, C_Z_NEG, C_W_NEG],
    ![C_X_NEG, C_Y_NEG, C_Z_NEG, C_W_POS],
    ![C_X_NEG, C_Y_NEG, C_Z_POS, C_W_NEG],
    ![C_X_NEG, C_Y_NEG, C_Z_POS, C_W_POS],
    ![C_X_NEG, C_Y_POS, C_Z_NEG, C_W_NEG],
    ![C_X_NEG, C_Y_POS, C_Z_NEG, C_W_POS],
    ![C_X_NEG, C_Y_POS, C_Z_POS, C_W_NEG],
    ![C_X_NEG, C_Y_POS, C_Z_POS, C_W_POS],
    ![C_X_POS, C_Y_NEG, C_Z_NEG, C_W_NEG],
    ![C_X_POS, C_Y_NEG, C_Z_NEG, C_W_POS],
    ![C_X_POS, C_Y_NEG, C_Z_POS, C_W_NEG],
    ![C_X_POS, C_Y_NEG, C_Z_POS, C_W_POS],
    ![C_X_POS, C_Y_POS, C_Z_NEG, C_W_NEG],
    ![C_X_POS, C_Y_POS, C_Z_NEG, C_W_POS],
    ![C_X_POS, C_Y_POS, C_Z_POS, C_W_NEG],
    ![C_X_POS, C_Y_POS, C_Z_POS, C_W_POS]]

/-- The assignment `vertices_[i].colors[s] = v`. -/
def setColor (p : TesseractPuzzle) (i : Fin 16) (s : Fin 4) (v : Int) : TesseractPuzzle :=
  ⟨Function.update p.vertices_ i ⟨Function.update (p.vertices_ i).colors s v⟩⟩

/-- The member `initSolved`: the two nested loops assigning
`vertices_[i].colors[s] = solved[i][s]`. -/
def initSolved (p : TesseractPuzzle) : TesseractPuzzle :=
  forLoop 16 (fun i p => forLoop 4 (fun s p => setColor p i s (solvedTable i s)) p) p

/-- The constructor `TesseractPuzzle()`: `initSolved` on uninitialised storage. -/
def new : TesseractPuzzle :=
  initSolved ⟨fun _ => ⟨fun _ => 0⟩⟩

/-- The member `reset`. -/
def reset (p : TesseractPuzzle) : TesseractPuzzle :=
  initSolved p

/-- The body of `rotateSlice` once the four subscripts `idx[0..3]` are known to be in
bounds: build `temp[i]` as the slot-swapped copy of `vertices_[idx[i]]`, then perform the
four assignments in source order. -/
def rotateAt (p : TesseractPuzzle) (idx : Fin 4 → Fin 16) (s0 s1 : Fin 4)
    (clockwise : Bool) : TesseractPuzzle :=
  let temp : Fin 4 → Vertex4D := fun i => (p.vertices_ (idx i)).swapColors s0 s1
  let v := p.vertices_
  if clockwise then
    let v := Function.update v (idx 1) (temp 0)
    let v := Function.update v (idx 2) (temp 1)
    let v := Function.update v (idx 3) (temp 2)
    let v := Function.update v (idx 0) (temp 3)
    ⟨v⟩
  else
    let v := Function.update v (idx 0) (temp 1)
    let v := Function.update v (idx 1) (temp 2)
    let v := Function.update v (idx 2) (temp 3)
    let v := Function.update v (idx 3) (temp 0)
    ⟨v⟩

/-- The member `rotateSlice(plane, layer, clockwise)`.  The result is `none` when one
of the computed subscripts falls outside `vertices_[16]`. -/
def rotateSlice (p : TesseractPuzzle) (plane layer : Int) (clockwise : Bool) :
    Option TesseractPuzzle :=
  let idx := getLayerIndices plane layer
  let s := getSlotSwap plane
  match vertexSlot (idx 0), vertexSlot (idx 1), vertexSlot (idx 2), vertexSlot (idx 3) with
  | some i0, some i1, some i2, some i3 => some (rotateAt p ![i0, i1, i2, i3] s.1 s.2 clockwise)
  | _, _, _, _ => none

/-- The subscript `move[i]` on a `std::string`; past the end it reads the terminating
null character. -/
def charAt (move : String) (i : Nat) : Char :=
  move.toList.getD i (Char.ofNat 0)

/-- The local variable `plane` of `applyMove`: the plane selected by `move[0]` and
`move[1]`, or `-1`. -/
def movePlane (move : String) : Int :=
  if charAt move 0 = 'X' ∧ charAt move 1 = 'Y' then PLANE_XY
  else if charAt move 0 = 'X' ∧ charAt move 1 = 'Z' then PLANE_XZ
  else if charAt move 0 = 'X' ∧ charAt move 1 = 'W' then PLANE_XW
  else if charAt move 0 = 'Y' ∧ charAt move 1 = 'Z' then PLANE_YZ
  else if charAt move 0 = 'Y' ∧ charAt move 1 = 'W' then PLANE_YW
  else if charAt move 0 = 'Z' ∧ charAt move 1 = 'W' then PLANE_ZW
  else -1

/-- The local variable `layer` of `applyMove`: `move[2] - '0'`. -/
def moveLayer (move : String) : Int :=
  ((charAt move 2).toNat : Int) - (('0' : Char).toNat : Int)

/-- The local variable `cw` of `applyMove`: `false` exactly when there is a fourth
character and it is an apostrophe or a backquote. -/
def moveClockwise (move : String) : Bool :=
  if move.length ≥ 4 ∧ (charAt move 3 = '\'' ∨ charAt move 3 = '`') then false else true

/-- The member `applyMove(move)`: the returned `bool` and the state afterwards; `none`
when the `rotateSlice` it calls indexes out of bounds. -/
def applyMove (p : TesseractPuzzle) (move : String) : Option (Bool × TesseractPuzzle) :=
  if move.length < 3 then some (false, p)
  else if movePlane move < 0 then some (false, p)
  else if moveLayer move < 0 ∨ moveLayer move > 3 then some (false, p)
  else (rotateSlice p (movePlane move) (moveLayer move) (moveClockwise move)).map
    (fun q => (true, q))

/-- The array `planes[]` of `scramble`: the six plane codes, in plane order. -/
def planes : Fin 6 → String
  | 0 => "XY"
  | 1 => "XZ"
  | 2 => "XW"
  | 3 => "YZ"
  | 4 => "YW"
  | 5 => "ZW"

/-- The character `char('0' + lay)` of `scramble`, for a layer `lay` in `0..3`. -/
def layerChar (lay : Fin 4) : Char :=
  Char.ofNat (('0' : Char).toNat + lay.val)

/-- The move code `planes[pl] + char('0' + lay)` built by `scramble`. -/
def moveCode (pl : Fin 6) (lay : Fin 4) : String :=
  planes pl ++ String.singleton (layerChar lay)

/-- The member `isSolved`: construct a puzzle `solved`, then run the two nested loops
that return `false` at the first slot differing from `solved`, and `true` after them. -/
def isSolved (p : TesseractPuzzle) : Bool :=
  let solved := new
  (List.finRange 16).all (fun i =>
    (List.finRange 4).all (fun s =>
      !decide ((p.vertices_ i).colors s ≠ (solved.vertices_ i).colors s)))

/-- The member `vertexIndex(ix, iy, iz, iw)`. -/
def vertexIndex (ix iy iz iw : Int) : Int :=
  ix * 8 + iy * 4 + iz * 2 + iw

/-- The member `getVertex(ix, iy, iz, iw)`: `vertices_[vertexIndex(ix, iy, iz, iw)]`, and
`none` when that subscript is out of bounds. -/
def getVertex (p : TesseractPuzzle) (ix iy iz iw : Int) : Option Vertex4D :=
  (vertexSlot (vertexIndex ix iy iz iw)).map p.vertices_

/-- The static member `isVertexInSlice(vertexIndex, plane, layer)`: the loop over the four
slice subscripts that returns `true` at the first one equal to `vertexIndex`. -/
def isVertexInSlice (vertexIndex plane layer : Int) : Bool :=
  let idx := getLayerIndices plane layer
  (List.finRange 4).any (fun i => decide (idx i = vertexIndex))

/-- One iteration of the loop of `scramble`, for the three numbers `pl`, `lay` and the
direction draw that the distributions `pdist(0, 5)`, `ldist(0, 3)`, `ddist(0, 1)` return:
build the move code and call `applyMove`, whose flag is discarded. -/
def scrambleStep (p : TesseractPuzzle) (draw : Fin 6 × Fin 4 × Fin 2) :
    Option TesseractPuzzle :=
  let cw : Bool := decide (draw.2.2 = 0)
  let m : String := planes draw.1 ++ String.singleton (layerChar draw.2.1)
  let m : String := if !cw then m ++ "'" else m
  (applyMove p m).map Prod.snd

/-- The member `scramble(numMoves)`.  The pseudo-random generator is a parameter: `draws i`
holds the three numbers drawn in iteration `i`. -/
def scramble (p : TesseractPuzzle) (draws : Nat → Fin 6 × Fin 4 × Fin 2) (numMoves : Int) :
    Option TesseractPuzzle :=
  (List.range numMoves.toNat).foldl
    (fun st i => st.bind (fun q => scrambleStep q (draws i))) (some p)

end TesseractPuzzle

/-! ## Rubik cube model (`rubik_cube.h`, `rubik_cube.cpp`) -/

/-- Face colour `WHITE` of `enum FaceColor`. -/
def WHITE : Int := 0
/-- Face colour `YELLOW` of `enum FaceColor`. -/
def YELLOW : Int := 1
/-- Face colour `RED` of `enum FaceColor`. -/
def RED : Int := 2
/-- Face colour `ORANGE` of `enum FaceColor`. -/
def ORANGE : Int := 3
/-- Face colour `GREEN` of `enum FaceColor`. -/
def GREEN : Int := 4
/-- Face colour `BLUE` of `enum FaceColor`. -/
def BLUE : Int := 5

/-- Face index `RIGHT` of `enum FaceIndex`. -/
def RIGHT : Fin 6 := 0
/-- Face index `LEFT` of `enum FaceIndex`. -/
def LEFT : Fin 6 := 1
/-- Face index `UP` of `enum FaceIndex`. -/
def UP : Fin 6 := 2
/-- Face index `DOWN` of `enum FaceIndex`. -/
def DOWN : Fin 6 := 3
/-- Face index `FRONT` of `enum FaceIndex`. -/
def FRONT : Fin 6 := 4
/-- Face index `BACK` of `enum FaceIndex`. -/
def BACK : Fin 6 := 5

/-- The class `RubikCube`: its only data member is `faces`, always of shape 6 x 3 x 3. -/
@[ext]
structure RubikCube where
  faces : Fin 6 → Fin 3 → Fin 3 → Int

/-- The loop `for (int i = 0; i < 3; i++) body` acting on a state `s`. -/
def for3 {σ : Type} (body : Fin 3 → σ → σ) (s : σ) : σ :=
  body 2 (body 1 (body 0 s))

/-- The subscript `2 - i` for a loop variable `i` in `0..2`. -/
def twoMinus (i : Fin 3) : Fin 3 :=
  ⟨2 - i.val, by omega⟩

/-- The assignment `g[r][c] = v` on a 3 x 3 grid. -/
def setCell (g : Fin 3 → Fin 3 → Int) (r c : Fin 3) (v : Int) : Fin 3 → Fin 3 → Int :=
  Function.update g r (Function.update (g r) c v)

/-- The assignment `faces[f][r][c] = v`. -/
def setSticker (fs : Fin 6 → Fin 3 → Fin 3 → Int) (f : Fin 6) (r c : Fin 3) (v : Int) :
    Fin 6 → Fin 3 → Fin 3 → Int :=
  Function.update fs f (setCell (fs f) r c v)

namespace RubikCube

/-- The array `faceColors` used by the constructor, `reset` and `isSolved`. -/
def faceColors : Fin 6 → Int :=
  ![RED, ORANGE, WHITE, YELLOW, GREEN, BLUE]

/-- The constructor `RubikCube()`. -/
def new : RubikCube :=
  ⟨fun i _ _ => faceColors i⟩

/-- The member `reset`: the three nested loops assigning
`faces[i][j][k] = faceColors[i]`. -/
def reset (c : RubikCube) : RubikCube :=
  ⟨forLoop 6 (fun i fs =>
    for3 (fun j fs => for3 (fun k fs => setSticker fs i j k (faceColors i)) fs) fs) c.faces⟩

/-- The member `rotateFaceClockwise(face)`: fill `temp[j][2 - i] = faces[face][i][j]`,
then assign `faces[face] = temp`. -/
def rotateFaceClockwise (c : RubikCube) (face : Fin 6) : RubikCube :=
  let temp : Fin 3 → Fin 3 → Int :=
    for3 (fun i t => for3 (fun j t => setCell t j (twoMinus i) (c.faces face i j)) t)
      (fun _ _ => 0)
  ⟨Function.update c.faces face temp⟩

/-- The member `rotateR`. -/
def rotateR (c : RubikCube) : RubikCube :=
  let fs := (rotateFaceClockwise c RIGHT).faces
  let temp : Fin 3 → Int := for3 (fun i t => Function.update t i (fs UP i 2)) (fun _ => 0)
  let fs := for3 (fun i fs => setSticker fs UP i 2 (fs FRONT i 2)) fs
  let fs := for3 (fun i fs => setSticker fs FRONT i 2 (fs DOWN i 2)) fs
  let fs := for3 (fun i fs => setSticker fs DOWN i 2 (fs BACK (twoMinus i) 0)) fs
  let fs := for3 (fun i fs => setSticker fs BACK (twoMinus i) 0 (temp i)) fs
  ⟨fs⟩

/-- The member `rotateL`. -/
def rotateL (c : RubikCube) : RubikCube :=
  let fs := (rotateFaceClockwise c LEFT).faces
  let temp : Fin 3 → Int := for3 (fun i t => Function.update t i (fs UP i 0)) (fun _ => 0)
  let fs := for3 (fun i fs => setSticker fs UP i 0 (fs BACK (twoMinus i) 2)) fs
  let fs := for3 (fun i fs => setSticker fs BACK (twoMinus i) 2 (fs DOWN i 0)) fs
  let fs := for3 (fun i fs => setSticker fs DOWN i 0 (fs FRONT i 0)) fs
  let fs := for3 (fun i fs => setSticker fs FRONT i 0 (temp i)) fs
  ⟨fs⟩

/-- The member `rotateU`. -/
def rotateU (c : RubikCube) : RubikCube :=
  let fs := (rotateFaceClockwise c UP).faces
  let temp : Fin 3 → Int := for3 (fun i t => Function.update t i (fs FRONT 0 i)) (fun _ => 0)
  let fs := for3 (fun i fs => setSticker fs FRONT 0 i (fs RIGHT 0 i)) fs
  let fs := for3 (fun i fs => setSticker fs RIGHT 0 i (fs BACK 0 i)) fs
  let fs := for3 (fun i fs => setSticker fs BACK 0 i (fs LEFT 0 i)) fs
  let fs := for3 (fun i fs => setSticker fs LEFT 0 i (temp i)) fs
  ⟨fs⟩

/-- The member `rotateD`. -/
def rotateD (c : RubikCube) : RubikCube :=
  let fs := (rotateFaceClockwise c DOWN).faces
  let temp : Fin 3 → Int := for3 (fun i t => Function.update t i (fs FRONT 2 i)) (fun _ => 0)
  let fs := for3 (fun i fs => setSticker fs FRONT 2 i (fs LEFT 2 i)) fs
  let fs := for3 (fun i fs => setSticker fs LEFT 2 i (fs BACK 2 i)) fs
  let fs := for3 (fun i fs => setSticker fs BACK 2 i (fs RIGHT 2 i)) fs
  let fs := for3 (fun i fs => setSticker fs RIGHT 2 i (temp i)) fs
  ⟨fs⟩

/-- The member `rotateF`. -/
def rotateF (c : RubikCube) : RubikCube :=
  let fs := (rotateFaceClockwise c FRONT).faces
  let temp : Fin 3 → Int := for3 (fun i t => Function.update t i (fs UP 2 i)) (fun _ => 0)
  let fs := for3 (fun i fs => setSticker fs UP 2 i (fs LEFT (twoMinus i) 2)) fs
  let fs := for3 (fun i fs => setSticker fs LEFT (twoMinus i) 2 (fs DOWN 0 (twoMinus i))) fs
  let fs := for3 (fun i fs => setSticker fs DOWN 0 (twoMinus i) (fs RIGHT i 0)) fs
  let fs := for3 (fun i fs => setSticker fs RIGHT i 0 (temp i)) fs
  ⟨fs⟩

/-- The member `rotateB`. -/
def rotateB (c : RubikCube) : RubikCube :=
  let fs := (rotateFaceClockwise c BACK).faces
  let temp : Fin 3 → Int := for3 (fun i t => Function.update t i (fs UP 0 i)) (fun _ => 0)
  let fs := for3 (fun i fs => setSticker fs UP 0 i (fs RIGHT i 2)) fs
  let fs := for3 (fun i fs => setSticker fs RIGHT i 2 (fs DOWN 2 (twoMinus i))) fs
  let fs := for3 (fun i fs => setSticker fs DOWN 2 (twoMinus i) (fs LEFT (twoMinus i) 0)) fs
  let fs := for3 (fun i fs => setSticker fs LEFT (twoMinus i) 0 (temp i)) fs
  ⟨fs⟩

/-- The member `rotateRPrime`. -/
def rotateRPrime (c : RubikCube) : RubikCube := rotateR (rotateR (rotateR c))
/-- The member `rotateLPrime`. -/
def rotateLPrime (c : RubikCube) : RubikCube := rotateL (rotateL (rotateL c))
/-- The member `rotateUPrime`. -/
def rotateUPrime (c : RubikCube) : RubikCube := rotateU (rotateU (rotateU c))
/-- The member `rotateDPrime`. -/
def rotateDPrime (c : RubikCube) : RubikCube := rotateD (rotateD (rotateD c))
/-- The member `rotateFPrime`. -/
def rotateFPrime (c : RubikCube) : RubikCube := rotateF (rotateF (rotateF c))
/-- The member `rotateBPrime`. -/
def rotateBPrime (c : RubikCube) : RubikCube := rotateB (rotateB (rotateB c))

/-- The member `applyMove(move)`: the returned `bool` and the state afterwards. -/
def applyMove (c : RubikCube) (move : String) : Bool × RubikCube :=
  if move = "R" then (true, rotateR c)
  else if move = "R'" then (true, rotateRPrime c)
  else if move = "L" then (true, rotateL c)
  else if move = "L'" then (true, rotateLPrime c)
  else if move = "U" then (true, rotateU c)
  else if move = "U'" then (true, rotateUPrime c)
  else if move = "D" then (true, rotateD c)
  else if move = "D'" then (true, rotateDPrime c)
  else if move = "F" then (true, rotateF c)
  else if move = "F'" then (true, rotateFPrime c)
  else if move = "B" then (true, rotateB c)
  else if move = "B'" then (true, rotateBPrime c)
  else (false, c)

/-- The member `isSolved`: the three nested loops that return `false` at the first
sticker differing from `faceColors[face]`, and `true` after them. -/
def isSolved (c : RubikCube) : Bool :=
  (List.finRange 6).all (fun face =>
    (List.finRange 3).all (fun row =>
      (List.finRange 3).all (fun col =>
        !decide (c.faces face row col ≠ faceColors face))))

/-- The member `getColor(face, row, col)`: `faces[face][row][col]`, and `none` when a
subscript is out of bounds. -/
def getColor (c : RubikCube) (face row col : Int) : Option Int :=
  if h : (0 ≤ face ∧ face < 6) ∧ (0 ≤ row ∧ row < 3) ∧ (0 ≤ col ∧ col < 3) then
    some (c.faces ⟨face.toNat, by omega⟩ ⟨row.toNat, by omega⟩ ⟨col.toNat, by omega⟩)
  else none

/-- The array `moves[]` of `scramble`: the twelve move tokens. -/
def moves : Fin 12 → String
  | 0 => "R"
  | 1 => "R'"
  | 2 => "L"
  | 3 => "L'"
  | 4 => "U"
  | 5 => "U'"
  | 6 => "D"
  | 7 => "D'"
  | 8 => "F"
  | 9 => "F'"
  | 10 => "B"
  | 11 => "B'"

/-- The member `scramble(numMoves)`.  The pseudo-random generator is a parameter: `draws i`
is the number that `dist(0, 11)` returns in iteration `i`. -/
def scramble (c : RubikCube) (draws : Nat → Fin 12) (numMoves : Int) : RubikCube :=
  (List.range numMoves.toNat).foldl (fun st i => (applyMove st (moves (draws i))).2) c

end RubikCube

/-! ## Auxiliary definitions for the statements and proofs -/

/-- The colour values of one vertex. -/
def Vertex4D.values (x : Vertex4D) : Multiset Int :=
  (Finset.univ : Finset (Fin 4)).val.map (fun s => x.colors s)

namespace TesseractPuzzle

/-- A caller performing a sequence of `rotateSlice(plane, layer, clockwise)` calls. -/
def rotateSlices (p : TesseractPuzzle) : List (Int × Int × Bool) → Option TesseractPuzzle
  | [] => some p
  | (plane, layer, clockwise) :: ms =>
    (rotateSlice p plane layer clockwise).bind (fun q => rotateSlices q ms)

/-- The multiset of the 64 colour values held in the `(vertex, slot)` positions. -/
def colorValues (p : TesseractPuzzle) : Multiset Int :=
  (Finset.univ : Finset (Fin 16)).val.bind (fun v => (p.vertices_ v).values)

/-- The step of the four-cycle: `3` for a clockwise move, `1` for a counterclockwise one. -/
def cycleStep (clockwise : Bool) : Fin 4 :=
  if clockwise then 3 else 1

/-- The vertex whose (slot-swapped) contents arrive at `v` when the slice `idx` is
turned by `d` steps; vertices off the slice stay. -/
def cycleSource (idx : Fin 4 → Fin 16) (d : Fin 4) (v : Fin 16) : Fin 16 :=
  if v = idx 0 then idx d
  else if v = idx 1 then idx (1 + d)
  else if v = idx 2 then idx (2 + d)
  else if v = idx 3 then idx (3 + d)
  else v

/-- The text of a move is a move code: a plane code, one digit `0..3`, and at most one
trailing reversal marker. -/
def isMoveCode (move : String) : Prop :=
  ∃ (pl : Fin 6) (lay : Fin 4),
    move = moveCode pl lay ∨ move = moveCode pl lay ++ "'" ∨ move = moveCode pl lay ++ "`"

instance (move : String) : Decidable (isMoveCode move) := by
  unfold isMoveCode
  infer_instance

/-- The fourth character of the text is an apostrophe or a backquote. -/
def hasReversalMarker (move : String) : Bool :=
  decide (move.toList.get? 3 = some '\'' ∨ move.toList.get? 3 = some '`')

end TesseractPuzzle

namespace RubikCube

/-- A caller applying a sequence of move tokens with `applyMove`, one after the other,
keeping the conjunction of the returned flags. -/
def applyMoves (c : RubikCube) : List String → Bool × RubikCube
  | [] => (true, c)
  | m :: ms =>
    let r := applyMove c m
    let r2 := applyMoves r.2 ms
    (r.1 && r2.1, r2.2)

/-- The move sequence R, U, R', U'. -/
def ruSequence : List String :=
  ["R", "U", "R'", "U'"]

/-- The cube whose sticker at `(face, row, col)` holds the number `9 face + 3 row + col`. -/
def labels : RubikCube :=
  ⟨fun f r k => 9 * (f.val : Int) + 3 * (r.val : Int) + (k.val : Int)⟩

/-- The position numbered `n` by `labels`. -/
def decodePos (n : Int) : Fin 6 × Fin 3 × Fin 3 :=
  (⟨(n.toNat / 9) % 6, Nat.mod_lt _ (by decide)⟩, ⟨(n.toNat / 3) % 3, Nat.mod_lt _ (by decide)⟩,
    ⟨n.toNat % 3, Nat.mod_lt _ (by decide)⟩)

/-- The position from which a move brings the sticker that ends at `(f, r, k)`, read off
by running the move on `labels`. -/
def source (m : RubikCube → RubikCube) (f : Fin 6) (r k : Fin 3) : Fin 6 × Fin 3 × Fin 3 :=
  decodePos ((m labels).faces f r k)

/-- The cube whose sticker at each position is taken from position `σ` of `c`. -/
def pull (c : RubikCube) (σ : Fin 6 → Fin 3 → Fin 3 → Fin 6 × Fin 3 × Fin 3) : RubikCube :=
  ⟨fun f r k => c.faces (σ f r k).1 (σ f r k).2.1 (σ f r k).2.2⟩

end RubikCube

/-! ## 4D math (`math_4d.h`, `math_4d.cpp`)

The C++ code computes in `float`; the model is written over an arbitrary field `K`, so
that it can be read with exact arithmetic.  The library functions `std::cos`, `std::sin`
and the constant `M_PI` are parameters. -/

/-- The struct `Vec4`. -/
@[ext]
structure Vec4 (K : Type) where
  x : K
  y : K
  z : K
  w : K

/-- The struct `Mat4x4`: sixteen entries `m[col*4 + row]`. -/
@[ext]
structure Mat4x4 (K : Type) where
  m : Fin 16 → K

namespace Mat4x4

/-- The constructor `Mat4x4()`: the loop `m[i] = 0.0f` over all sixteen entries. -/
def new {K : Type} [Field K] : Mat4x4 K :=
  ⟨forLoop 16 (fun i m => Function.update m i 0) (fun _ => 0)⟩

/-- The static member `identity()`. -/
def identity {K : Type} [Field K] : Mat4x4 K :=
  let r : Fin 16 → K := (new : Mat4x4 K).m
  let r := Function.update r 15 1
  let r := Function.update r 10 1
  let r := Function.update r 5 1
  let r := Function.update r 0 1
  ⟨r⟩

/-- The subscript `i * 4 + j` for `i`, `j` in `0..3`. -/
def entry (i j : Fin 4) : Fin 16 :=
  ⟨i.val * 4 + j.val, by omega⟩

end Mat4x4

/-- The static function `setRotation2D(out, i, j, c, s)`, returning `out`. -/
def setRotation2D {K : Type} [Field K] (i j : Fin 4) (c s : K) : Mat4x4 K :=
  let out : Fin 16 → K := (Mat4x4.identity : Mat4x4 K).m
  let out := Function.update out (Mat4x4.entry i i) c
  let out := Function.update out (Mat4x4.entry i j) (-s)
  let out := Function.update out (Mat4x4.entry j i) s
  let out := Function.update out (Mat4x4.entry j j) c
  ⟨out⟩

/-- The function `rotate4D(plane, angleDeg)`, with `std::cos`, `std::sin` and `M_PI` as the
parameters `cos`, `sin` and `pi`. -/
def rotate4D {K : Type} [Field K] (cos sin : K → K) (pi : K) (plane : Int) (angleDeg : K) :
    Mat4x4 K :=
  let rad := angleDeg * (pi / 180)
  let c := cos rad
  let s := sin rad
  if plane = 0 then setRotation2D 0 1 c s
  else if plane = 1 then setRotation2D 0 2 c s
  else if plane = 2 then setRotation2D 0 3 c s
  else if plane = 3 then setRotation2D 1 2 c s
  else if plane = 4 then setRotation2D 1 3 c s
  else if plane = 5 then setRotation2D 2 3 c s
  else Mat4x4.identity

/-- The function `matMul(m, v)` of a matrix and a vector. -/
def matMul {K : Type} [Field K] (m : Mat4x4 K) (v : Vec4 K) : Vec4 K :=
  ⟨m.m 0 * v.x + m.m 4 * v.y + m.m 8 * v.z + m.m 12 * v.w,
   m.m 1 * v.x + m.m 5 * v.y + m.m 9 * v.z + m.m 13 * v.w,
   m.m 2 * v.x + m.m 6 * v.y + m.m 10 * v.z + m.m 14 * v.w,
   m.m 3 * v.x + m.m 7 * v.y + m.m 11 * v.z + m.m 15 * v.w⟩

/-! ## Further auxiliary definitions -/

namespace TesseractPuzzle

/-- The two axes that are not part of a rotation plane, in axis order (X = 0, Y = 1,
Z = 2, W = 3): the first carries `a = layer / 2`, the second `b = layer % 2`. -/
def freeAxes (plane : Int) : Fin 4 × Fin 4 :=
  if plane = PLANE_XY then (2, 3)
  else if plane = PLANE_XZ then (1, 3)
  else if plane = PLANE_XW then (1, 2)
  else if plane = PLANE_YZ then (0, 3)
  else if plane = PLANE_YW then (0, 2)
  else (0, 1)

/-- The cross-section of `(plane, layer)` as the specification describes it: the vertices
`ix*8 + iy*4 + iz*2 + iw` with coordinates in `{0, 1}` whose two coordinates on the free
axes of the plane are `(layer / 2, layer % 2)`. -/
def specSlice (plane layer : Int) (v : Int) : Prop :=
  ∃ c : Fin 4 → Fin 2,
    v = vertexIndex ((c 0).val : Int) ((c 1).val : Int) ((c 2).val : Int) ((c 3).val : Int) ∧
    ((c (freeAxes plane).1).val : Int) = Int.tdiv layer 2 ∧
    ((c (freeAxes plane).2).val : Int) = Int.tmod layer 2

instance (plane layer v : Int) : Decidable (specSlice plane layer v) := by
  unfold specSlice
  infer_instance

/-- A plane in `0..5` with a layer in `0..3`, as a move of a sequence. -/
def inRange (m : Int × Int × Bool) : Prop :=
  (0 ≤ m.1 ∧ m.1 ≤ 5) ∧ (0 ≤ m.2.1 ∧ m.2.1 ≤ 3)

end TesseractPuzzle

/-- The vertex holds exactly one colour of each axis pair `{2a, 2a + 1}`, `a = 0..3`, and
nothing else: each of its four values is in `0..7`. -/
def Vertex4D.onePerAxis (x : Vertex4D) : Prop :=
  (∀ a : Fin 4, x.values.countP (fun c => c = 2 * (a.val : Int) ∨ c = 2 * (a.val : Int) + 1) = 1) ∧
  ∀ c ∈ x.values, 0 ≤ c ∧ c ≤ 7

namespace RubikCube

/-- The multiset of the 54 sticker values. -/
def stickerValues (c : RubikCube) : Multiset Int :=
  (Finset.univ : Finset (Fin 6 × Fin 3 × Fin 3)).val.map
    (fun pos => c.faces pos.1 pos.2.1 pos.2.2)

/-- The twelve moves, numbered as the tokens of `moves[]`. -/
def move (k : Fin 12) (c : RubikCube) : RubikCube :=
  (applyMove c (moves k)).2

end RubikCube

/-! ## Tesseract: the slot swap and the four-cycle -/

theorem Vertex4D.swapColors_swapColors (v : Vertex4D) (s0 s1 : Fin 4) :
    (v.swapColors s0 s1).swapColors s0 s1 = v := by
  ext k
  simp only [Vertex4D.swapColors, Function.update_apply]
  split_ifs <;> simp_all

namespace TesseractPuzzle

theorem rotateAt_slice (p : TesseractPuzzle) (idx : Fin 4 → Fin 16)
    (hidx : Function.Injective idx) (s0 s1 : Fin 4) (cw : Bool) (k : Fin 4) :
    (rotateAt p idx s0 s1 cw).vertices_ (idx k)
      = (p.vertices_ (idx (k + cycleStep cw))).swapColors s0 s1 := by
  cases cw <;> fin_cases k <;>
    simp [rotateAt, cycleStep, Function.update_apply, hidx.eq_iff]

theorem rotateAt_other (p : TesseractPuzzle) (idx : Fin 4 → Fin 16) (s0 s1 : Fin 4)
    (cw : Bool) (v : Fin 16) (hv : ∀ k, v ≠ idx k) :
    (rotateAt p idx s0 s1 cw).vertices_ v = p.vertices_ v := by
  cases cw <;> simp [rotateAt, Function.update_apply, hv]

theorem rotateAt_rotateAt (p : TesseractPuzzle) (idx : Fin 4 → Fin 16)
    (hidx : Function.Injective idx) (s0 s1 : Fin 4) (cw cw2 : Bool) (k : Fin 4) :
    (rotateAt (rotateAt p idx s0 s1 cw) idx s0 s1 cw2).vertices_ (idx k)
      = p.vertices_ (idx (k + cycleStep cw2 + cycleStep cw)) := by
  rw [rotateAt_slice _ idx hidx, rotateAt_slice _ idx hidx, Vertex4D.swapColors_swapColors]

/-- Clockwise followed by counterclockwise on the same slice restores the state. -/
theorem rotateAt_inverse (p : TesseractPuzzle) (idx : Fin 4 → Fin 16)
    (hidx : Function.Injective idx) (s0 s1 : Fin 4) :
    rotateAt (rotateAt p idx s0 s1 true) idx s0 s1 false = p := by
  ext1
  funext v
  by_cases hv : ∃ k, v = idx k
  · obtain ⟨k, rfl⟩ := hv
    rw [rotateAt_rotateAt _ idx hidx]
    congr 2
    fin_cases k <;> rfl
  · push_neg at hv
    rw [rotateAt_other _ _ _ _ _ _ hv, rotateAt_other _ _ _ _ _ _ hv]

/-- Four equal quarter turns of the same slice restore the state. -/
theorem rotateAt_four (p : TesseractPuzzle) (idx : Fin 4 → Fin 16)
    (hidx : Function.Injective idx) (s0 s1 : Fin 4) (cw : Bool) :
    rotateAt (rotateAt (rotateAt (rotateAt p idx s0 s1 cw) idx s0 s1 cw) idx s0 s1 cw)
      idx s0 s1 cw = p := by
  ext1
  funext v
  by_cases hv : ∃ k, v = idx k
  · obtain ⟨k, rfl⟩ := hv
    rw [rotateAt_rotateAt _ idx hidx, rotateAt_rotateAt _ idx hidx]
    congr 2
    cases cw <;> fin_cases k <;> rfl
  · push_neg at hv
    simp only [rotateAt_other _ _ _ _ _ _ hv]

/-- For a plane in `0..5` and a layer in `0..3`, other than layer 3 of `PLANE_YW`, the
four subscripts are in bounds and pairwise distinct, so `rotateSlice` is `rotateAt` on
them. -/
theorem rotateSlice_eq_rotateAt (plane layer : Int) (hp : 0 ≤ plane ∧ plane ≤ 5)
    (hl : 0 ≤ layer ∧ layer ≤ 3) (hne : ¬ (plane = PLANE_YW ∧ layer = 3)) :
    ∃ idx : Fin 4 → Fin 16, Function.Injective idx ∧
      (∀ k, ((idx k : Nat) : Int) = getLayerIndices plane layer k) ∧
      ∀ (p : TesseractPuzzle) (cw : Bool), rotateSlice p plane layer cw
        = some (rotateAt p idx (getSlotSwap plane).1 (getSlotSwap plane).2 cw) := by
  obtain ⟨hp0, hp5⟩ := hp
  obtain ⟨hl0, hl3⟩ := hl
  interval_cases plane <;> interval_cases layer <;>
    first
    | (refine ⟨![_, _, _, _], ?_, ?_, fun _ _ => rfl⟩ <;> decide)
    | exact absurd (And.intro (Eq.refl PLANE_YW) (Eq.refl 3)) hne

/-- Layer 3 of `PLANE_YW`: the third subscript is 16, outside `vertices_[16]`. -/
theorem rotateSlice_YW3 (p : TesseractPuzzle) (cw : Bool) :
    rotateSlice p PLANE_YW 3 cw = none := by
  rfl

end TesseractPuzzle

/-! ## Tesseract: quarter turns of a slice -/

namespace TesseractPuzzle

/-- Away from layer 3 of `PLANE_YW`, four clockwise quarter turns of the slice
`(plane, layer)` with `plane` in `0..5` and `layer` in `0..3` restore every state. -/
theorem rotateSlices_four_inBounds (p : TesseractPuzzle) (plane layer : Int)
    (hp : 0 ≤ plane ∧ plane ≤ 5) (hl : 0 ≤ layer ∧ layer ≤ 3)
    (hne : ¬ (plane = PLANE_YW ∧ layer = 3)) :
    rotateSlices p (List.replicate 4 (plane, layer, true)) = some p := by
  obtain ⟨idx, hidx, -, h⟩ := rotateSlice_eq_rotateAt plane layer hp hl hne
  simp only [List.replicate, rotateSlices, h, Option.some_bind, rotateAt_four _ idx hidx]

/-- Away from layer 3 of `PLANE_YW`, a clockwise quarter turn followed by the
counterclockwise quarter turn of the same slice restores every state. -/
theorem rotateSlices_inverse_inBounds (p : TesseractPuzzle) (plane layer : Int)
    (hp : 0 ≤ plane ∧ plane ≤ 5) (hl : 0 ≤ layer ∧ layer ≤ 3)
    (hne : ¬ (plane = PLANE_YW ∧ layer = 3)) :
    rotateSlices p [(plane, layer, true), (plane, layer, false)] = some p := by
  obtain ⟨idx, hidx, -, h⟩ := rotateSlice_eq_rotateAt plane layer hp hl hne
  simp only [rotateSlices, h, Option.some_bind, rotateAt_inverse _ idx hidx]

end TesseractPuzzle

/-- C1, at the input where it fails: for layer 3 of plane YW (plane 4) the third slice
subscript computed by `getLayerIndices` is 16, one past the end of `vertices_[16]`, so
four clockwise `rotateSlice` calls do not yield the starting state: the very first call
indexes out of bounds, whatever the state. -/
theorem tesseract_four_turns_YW3_out_of_bounds :
    getLayerIndices PLANE_YW 3 = ![10, 14, 16, 12] ∧
    vertexSlot (getLayerIndices PLANE_YW 3 2) = none ∧
    ∀ p : TesseractPuzzle,
      TesseractPuzzle.rotateSlices p (List.replicate 4 (PLANE_YW, 3, true)) = none := by
  refine ⟨by decide, by decide, fun p => ?_⟩
  rfl

/-- C2, at the input where it fails: for layer 3 of plane YW the clockwise
`rotateSlice` call indexes `vertices_[16]`, so clockwise followed by counterclockwise
does not yield the starting state. -/
theorem tesseract_inverse_YW3_out_of_bounds (p : TesseractPuzzle) :
    TesseractPuzzle.rotateSlice p PLANE_YW 3 true = none ∧
    TesseractPuzzle.rotateSlice p PLANE_YW 3 false = none ∧
    TesseractPuzzle.rotateSlices p [(PLANE_YW, 3, true), (PLANE_YW, 3, false)] ≠ some p := by
  refine ⟨rfl, rfl, ?_⟩
  simp [TesseractPuzzle.rotateSlices, TesseractPuzzle.rotateSlice_YW3]

/-! ## Tesseract: a quarter turn rearranges the colour values -/

theorem Vertex4D.values_swapColors (x : Vertex4D) (s0 s1 : Fin 4) :
    (x.swapColors s0 s1).values = x.values := by
  have h : (fun s => (x.swapColors s0 s1).colors s)
      = (fun s => x.colors s) ∘ (Equiv.swap s0 s1) := by
    funext k
    simp only [Vertex4D.swapColors, Function.update_apply, Function.comp_apply,
      Equiv.swap_apply_def]
    split_ifs <;> simp_all
  unfold Vertex4D.values
  rw [h, ← Multiset.map_map, Multiset.map_univ_val_equiv]

namespace TesseractPuzzle

theorem cycleSource_slice (idx : Fin 4 → Fin 16) (hidx : Function.Injective idx)
    (d k : Fin 4) : cycleSource idx d (idx k) = idx (k + d) := by
  fin_cases k <;> simp [cycleSource, hidx.eq_iff]

theorem cycleSource_other (idx : Fin 4 → Fin 16) (d : Fin 4) (v : Fin 16)
    (hv : ∀ k, v ≠ idx k) : cycleSource idx d v = v := by
  simp [cycleSource, hv]

theorem cycleSource_bijective (idx : Fin 4 → Fin 16) (hidx : Function.Injective idx)
    (d : Fin 4) : Function.Bijective (cycleSource idx d) := by
  refine Finite.injective_iff_bijective.mp (Function.LeftInverse.injective (g := cycleSource idx (-d)) ?_)
  intro v
  by_cases hv : ∃ k, v = idx k
  · obtain ⟨k, rfl⟩ := hv
    rw [cycleSource_slice idx hidx, cycleSource_slice idx hidx]
    congr 1
    abel
  · push_neg at hv
    rw [cycleSource_other idx d v hv, cycleSource_other idx _ v hv]

theorem rotateAt_values (p : TesseractPuzzle) (idx : Fin 4 → Fin 16)
    (hidx : Function.Injective idx) (s0 s1 : Fin 4) (cw : Bool) (v : Fin 16) :
    ((rotateAt p idx s0 s1 cw).vertices_ v).values
      = (p.vertices_ (cycleSource idx (cycleStep cw) v)).values := by
  by_cases hv : ∃ k, v = idx k
  · obtain ⟨k, rfl⟩ := hv
    rw [rotateAt_slice p idx hidx, cycleSource_slice idx hidx, Vertex4D.values_swapColors]
  · push_neg at hv
    rw [rotateAt_other p idx s0 s1 cw v hv, cycleSource_other idx _ v hv]

/-- A quarter turn on four distinct in-bounds vertices only rearranges the 64 colour
values. -/
theorem colorValues_rotateAt (p : TesseractPuzzle) (idx : Fin 4 → Fin 16)
    (hidx : Function.Injective idx) (s0 s1 : Fin 4) (cw : Bool) :
    colorValues (rotateAt p idx s0 s1 cw) = colorValues p := by
  have h : (fun v => ((rotateAt p idx s0 s1 cw).vertices_ v).values)
      = (fun v => (p.vertices_ v).values) ∘ cycleSource idx (cycleStep cw) := by
    funext v
    exact rotateAt_values p idx hidx s0 s1 cw v
  show Multiset.bind _ (fun v => ((rotateAt p idx s0 s1 cw).vertices_ v).values)
    = Multiset.bind _ (fun v => (p.vertices_ v).values)
  have hmap := Multiset.bind_map (Finset.univ : Finset (Fin 16)).val
    (fun v => (p.vertices_ v).values) (cycleSource idx (cycleStep cw))
  rw [(Multiset.bijective_iff_map_univ_eq_univ _).mp (cycleSource_bijective idx hidx _)] at hmap
  rw [h, hmap]
  rfl

/-- Away from layer 3 of `PLANE_YW`, `rotateSlice` with a plane in `0..5` and a layer in
`0..3` returns a state holding the same multiset of colour values. -/
theorem colorValues_rotateSlice_inBounds (p : TesseractPuzzle) (plane layer : Int)
    (cw : Bool) (hp : 0 ≤ plane ∧ plane ≤ 5) (hl : 0 ≤ layer ∧ layer ≤ 3)
    (hne : ¬ (plane = PLANE_YW ∧ layer = 3)) :
    ∃ q, rotateSlice p plane layer cw = some q ∧ colorValues q = colorValues p := by
  obtain ⟨idx, hidx, -, h⟩ := rotateSlice_eq_rotateAt plane layer hp hl hne
  exact ⟨_, h p cw, colorValues_rotateAt p idx hidx _ _ cw⟩

end TesseractPuzzle

/-- C6, at the input where it fails: `rotateSlice` on layer 3 of plane YW, in either
direction, indexes `vertices_[16]`; there is no state after the move whose 64 colour
values are a rearrangement of those before, already from the solved puzzle. -/
theorem tesseract_colorValues_YW3_out_of_bounds (cw : Bool) :
    (∀ p : TesseractPuzzle, ¬ ∃ q, TesseractPuzzle.rotateSlice p PLANE_YW 3 cw = some q ∧
      TesseractPuzzle.colorValues q = TesseractPuzzle.colorValues p) ∧
    TesseractPuzzle.rotateSlices TesseractPuzzle.new [(PLANE_YW, 3, cw)] = none := by
  refine ⟨fun p h => ?_, rfl⟩
  obtain ⟨q, hq, -⟩ := h
  rw [TesseractPuzzle.rotateSlice_YW3] at hq
  exact Option.noConfusion hq

/-! ## Tesseract: the move-code parser -/

namespace TesseractPuzzle

theorem movePlane_of_code (move : String) (k : Fin 6)
    (h : move.toList.take 2 = (planes k).toList) : movePlane move = (k.val : Int) := by
  obtain ⟨m⟩ := move
  rcases m with _ | ⟨a, _ | ⟨b, rest⟩⟩
  · fin_cases k <;> simp [planes] at h
  · fin_cases k <;> simp [planes] at h
  · fin_cases k <;> simp [planes] at h <;> obtain ⟨rfl, rfl⟩ := h <;> rfl

theorem movePlane_of_not_code (move : String)
    (h : ∀ k : Fin 6, move.toList.take 2 ≠ (planes k).toList) : movePlane move = -1 := by
  obtain ⟨m⟩ := move
  rcases m with _ | ⟨a, _ | ⟨b, rest⟩⟩
  · rfl
  · simp [movePlane, charAt]
  · have h0 := h 0
    have h1 := h 1
    have h2 := h 2
    have h3 := h 3
    have h4 := h 4
    have h5 := h 5
    simp [planes] at h0 h1 h2 h3 h4 h5
    have e0 : ¬ (a = 'X' ∧ b = 'Y') := fun c => h0 c.1 c.2
    have e1 : ¬ (a = 'X' ∧ b = 'Z') := fun c => h1 c.1 c.2
    have e2 : ¬ (a = 'X' ∧ b = 'W') := fun c => h2 c.1 c.2
    have e3 : ¬ (a = 'Y' ∧ b = 'Z') := fun c => h3 c.1 c.2
    have e4 : ¬ (a = 'Y' ∧ b = 'W') := fun c => h4 c.1 c.2
    have e5 : ¬ (a = 'Z' ∧ b = 'W') := fun c => h5 c.1 c.2
    have ha : charAt ⟨a :: b :: rest⟩ 0 = a := rfl
    have hb : charAt ⟨a :: b :: rest⟩ 1 = b := rfl
    unfold movePlane
    rw [ha, hb, if_neg e0, if_neg e1, if_neg e2, if_neg e3, if_neg e4, if_neg e5]

theorem layerChar_toNat (d : Fin 4) : ((layerChar d).toNat : Int) = 48 + (d.val : Int) := by
  fin_cases d <;> rfl

theorem moveLayer_of_digit (move : String) (d : Fin 4)
    (h : move.toList.get? 2 = some (layerChar d)) : moveLayer move = (d.val : Int) := by
  obtain ⟨m⟩ := move
  rcases m with _ | ⟨a, _ | ⟨b, _ | ⟨c, rest⟩⟩⟩
  · simp at h
  · simp at h
  · simp at h
  · simp at h
    subst h
    fin_cases d <;> rfl

theorem moveLayer_of_not_digit (move : String)
    (h : ∀ d : Fin 4, move.toList.get? 2 ≠ some (layerChar d)) :
    moveLayer move < 0 ∨ moveLayer move > 3 := by
  obtain ⟨m⟩ := move
  rcases m with _ | ⟨a, _ | ⟨b, _ | ⟨c, rest⟩⟩⟩
  · left; decide
  · left; show ((0 : Nat) : Int) - 48 < 0; omega
  · left; show ((0 : Nat) : Int) - 48 < 0; omega
  · by_contra hcon
    push_neg at hcon
    have hc : moveLayer ⟨a :: b :: c :: rest⟩ = (c.toNat : Int) - 48 := rfl
    rw [hc] at hcon
    obtain ⟨h0, h3⟩ := hcon
    have hd : c.toNat - 48 < 4 := by omega
    apply h ⟨c.toNat - 48, hd⟩
    simp only [String.toList, List.get?_cons_succ, List.get?_cons_zero, Option.some.injEq]
    unfold layerChar
    have : ('0' : Char).toNat + (c.toNat - 48) = c.toNat := by
      have : ('0' : Char).toNat = 48 := rfl
      omega
    rw [this, Char.ofNat_toNat]

end TesseractPuzzle

namespace TesseractPuzzle

theorem moveClockwise_eq (move : String) :
    moveClockwise move = !hasReversalMarker move := by
  obtain ⟨m⟩ := move
  rcases m with _ | ⟨a, _ | ⟨b, _ | ⟨c, _ | ⟨d, rest⟩⟩⟩⟩ <;>
    simp [moveClockwise, hasReversalMarker, charAt, String.length]

theorem take_three_iff (move : String) (k : Fin 6) (d : Fin 4) :
    move.toList.take 3 = (moveCode k d).toList ↔
      move.toList.take 2 = (planes k).toList ∧ move.toList.get? 2 = some (layerChar d) := by
  obtain ⟨m⟩ := move
  have hcode : (moveCode k d).toList = (planes k).toList ++ [layerChar d] := by
    fin_cases k <;> rfl
  rw [hcode]
  rcases m with _ | ⟨a, _ | ⟨b, _ | ⟨c, rest⟩⟩⟩ <;> fin_cases k <;> simp [planes]
  all_goals tauto

/-- The text begins with a plane code and a layer digit: `applyMove` performs the
corresponding `rotateSlice` and, if that call stays in bounds, returns `true`. -/
theorem applyMove_of_code (p : TesseractPuzzle) (move : String) (k : Fin 6) (d : Fin 4)
    (h : move.toList.take 3 = (moveCode k d).toList) :
    applyMove p move = (rotateSlice p (k.val : Int) (d.val : Int)
      (!hasReversalMarker move)).map (fun q => (true, q)) := by
  obtain ⟨h2, h3⟩ := (take_three_iff move k d).mp h
  have hlen : ¬ move.length < 3 := by
    obtain ⟨m⟩ := move
    rcases m with _ | ⟨a, _ | ⟨b, _ | ⟨c, rest⟩⟩⟩ <;> simp [String.length] at h3 ⊢
  have hk : ¬ ((k.val : Int) < 0) := by omega
  have hd : ¬ ((d.val : Int) < 0 ∨ (d.val : Int) > 3) := by omega
  unfold applyMove
  rw [if_neg hlen, movePlane_of_code move k h2, moveLayer_of_digit move d h3, if_neg hk,
    if_neg hd, moveClockwise_eq]

/-- The text does not begin with a plane code and a layer digit: `applyMove` returns
`false` and the state is the one it was given. -/
theorem applyMove_of_not_code (p : TesseractPuzzle) (move : String)
    (h : move.length < 3 ∨ (∀ k : Fin 6, move.toList.take 2 ≠ (planes k).toList) ∨
      (∀ d : Fin 4, move.toList.get? 2 ≠ some (layerChar d))) :
    applyMove p move = some (false, p) := by
  unfold applyMove
  rcases h with h | h | h
  · rw [if_pos h]
  · have : movePlane move < 0 := by rw [movePlane_of_not_code move h]; decide
    rw [if_pos this]
    split_ifs <;> rfl
  · rw [if_pos (moveLayer_of_not_digit move h)]
    split_ifs <;> rfl

end TesseractPuzzle

namespace TesseractPuzzle

/-- For every plane code and layer digit, `applyMove` on the bare code is the clockwise
`rotateSlice` call followed by `return true`, and on the code followed by an apostrophe
or a backquote it is the counterclockwise call followed by `return true`. -/
theorem applyMove_moveCode (p : TesseractPuzzle) (k : Fin 6) (d : Fin 4) :
    applyMove p (moveCode k d)
      = (rotateSlice p (k.val : Int) (d.val : Int) true).map (fun q => (true, q)) ∧
    applyMove p (moveCode k d ++ "'")
      = (rotateSlice p (k.val : Int) (d.val : Int) false).map (fun q => (true, q)) ∧
    applyMove p (moveCode k d ++ "`")
      = (rotateSlice p (k.val : Int) (d.val : Int) false).map (fun q => (true, q)) := by
  fin_cases k <;> fin_cases d <;> exact ⟨rfl, rfl, rfl⟩

end TesseractPuzzle

/-- C8, at the input where it fails: the move codes of layer 3 of plane YW.  `applyMove`
parses "YW3" (and "YW3'", and "YW3" followed by a backquote) and calls
`rotateSlice(PLANE_YW, 3, ..)`, which indexes `vertices_[16]`; no `true` is returned
from a well-defined execution. -/
theorem tesseract_applyMove_YW3_out_of_bounds (p : TesseractPuzzle) :
    TesseractPuzzle.moveCode 4 3 = "YW3" ∧
    TesseractPuzzle.applyMove p "YW3" = none ∧
    TesseractPuzzle.applyMove p "YW3'" = none ∧
    TesseractPuzzle.applyMove p "YW3`" = none :=
  ⟨by decide, rfl, rfl, rfl⟩

/-- C9: `applyMove` returns `false` and leaves the puzzle as it was whenever the text is
shorter than 3 characters, or its first two characters are not one of the six plane
codes, or its third character is not one of the digits `0..3`. -/
theorem tesseract_applyMove_rejects (p : TesseractPuzzle) (move : String)
    (h : move.length < 3 ∨
      (∀ k : Fin 6, move.toList.take 2 ≠ (TesseractPuzzle.planes k).toList) ∨
      (∀ d : Fin 4, move.toList.get? 2 ≠ some (TesseractPuzzle.layerChar d))) :
    TesseractPuzzle.applyMove p move = some (false, p) :=
  TesseractPuzzle.applyMove_of_not_code p move h

/-- C9 on the texts "Q9", "XY4", "xy0" and the empty text, from the solved puzzle. -/
theorem tesseract_applyMove_rejects_witness :
    TesseractPuzzle.applyMove TesseractPuzzle.new "Q9" = some (false, TesseractPuzzle.new) ∧
    TesseractPuzzle.applyMove TesseractPuzzle.new "XY4" = some (false, TesseractPuzzle.new) ∧
    TesseractPuzzle.applyMove TesseractPuzzle.new "xy0" = some (false, TesseractPuzzle.new) ∧
    TesseractPuzzle.applyMove TesseractPuzzle.new "" = some (false, TesseractPuzzle.new) :=
  ⟨tesseract_applyMove_rejects _ "Q9" (Or.inl (by decide)),
   tesseract_applyMove_rejects _ "XY4" (Or.inr (Or.inr (by decide))),
   tesseract_applyMove_rejects _ "xy0" (Or.inr (Or.inl (by decide))),
   tesseract_applyMove_rejects _ "" (Or.inl (by decide))⟩

/-- C10 as stated fails: "XY0x" and "XY0''" are not move codes, yet `applyMove` returns
`true` on them and turns the slice XY0 (clockwise for the first, counterclockwise for the
second), leaving the solved puzzle unsolved. -/
theorem tesseract_applyMove_trailing_accepted :
    ¬ TesseractPuzzle.isMoveCode "XY0x" ∧
    (TesseractPuzzle.applyMove TesseractPuzzle.new "XY0x").map Prod.fst = some true ∧
    TesseractPuzzle.applyMove TesseractPuzzle.new "XY0x"
      = TesseractPuzzle.applyMove TesseractPuzzle.new "XY0" ∧
    (TesseractPuzzle.applyMove TesseractPuzzle.new "XY0x").map
      (fun r => TesseractPuzzle.isSolved r.2) = some false ∧
    ¬ TesseractPuzzle.isMoveCode "XY0''" ∧
    (TesseractPuzzle.applyMove TesseractPuzzle.new "XY0''").map Prod.fst = some true ∧
    TesseractPuzzle.applyMove TesseractPuzzle.new "XY0''"
      = TesseractPuzzle.applyMove TesseractPuzzle.new "XY0'" ∧
    (TesseractPuzzle.applyMove TesseractPuzzle.new "XY0''").map
      (fun r => TesseractPuzzle.isSolved r.2) = some false := by
  refine ⟨by decide, by decide, rfl, by decide, by decide, by decide, rfl, by decide⟩

/-- C10, amended: only the first three characters are validated.  For every text not
beginning with "YW3": `applyMove` returns `true` exactly when the text begins with a
plane code followed by a digit `0..3`; it then performs `rotateSlice` on that plane and
layer, counterclockwise when the fourth character is an apostrophe or a backquote and
clockwise otherwise, whatever follows; and for every other text it returns `false` with
the state unchanged. -/
theorem tesseract_applyMove_checks_first_three (p : TesseractPuzzle) (move : String)
    (hyw : move.toList.take 3 ≠ "YW3".toList) :
    ((∃ q, TesseractPuzzle.applyMove p move = some (true, q)) ↔
      ∃ (k : Fin 6) (d : Fin 4), move.toList.take 3 = (TesseractPuzzle.moveCode k d).toList) ∧
    (∀ (k : Fin 6) (d : Fin 4), move.toList.take 3 = (TesseractPuzzle.moveCode k d).toList →
      ∃ q, TesseractPuzzle.rotateSlice p (k.val : Int) (d.val : Int)
          (!TesseractPuzzle.hasReversalMarker move) = some q ∧
        TesseractPuzzle.applyMove p move = some (true, q)) ∧
    ((¬ ∃ (k : Fin 6) (d : Fin 4),
        move.toList.take 3 = (TesseractPuzzle.moveCode k d).toList) →
      TesseractPuzzle.applyMove p move = some (false, p)) := by
  have hyes : ∀ (k : Fin 6) (d : Fin 4),
      move.toList.take 3 = (TesseractPuzzle.moveCode k d).toList →
      ∃ q, TesseractPuzzle.rotateSlice p (k.val : Int) (d.val : Int)
          (!TesseractPuzzle.hasReversalMarker move) = some q ∧
        TesseractPuzzle.applyMove p move = some (true, q) := by
    intro k d h
    have hne : ¬ ((k.val : Int) = PLANE_YW ∧ (d.val : Int) = 3) := by
      rintro ⟨hk, hd⟩
      have hk4 : k = 4 := by
        apply Fin.ext
        have : (k.val : Int) = 4 := hk
        have h4 : ((4 : Fin 6) : Nat) = 4 := rfl
        omega
      have hd3 : d = 3 := by
        apply Fin.ext
        have h3 : ((3 : Fin 4) : Nat) = 3 := rfl
        omega
      subst hk4 hd3
      exact hyw h
    obtain ⟨idx, -, -, hrot⟩ := TesseractPuzzle.rotateSlice_eq_rotateAt (k.val : Int)
      (d.val : Int) (by omega) (by omega) hne
    refine ⟨_, hrot p _, ?_⟩
    rw [TesseractPuzzle.applyMove_of_code p move k d h, hrot]
    rfl
  have hno : (¬ ∃ (k : Fin 6) (d : Fin 4),
        move.toList.take 3 = (TesseractPuzzle.moveCode k d).toList) →
      TesseractPuzzle.applyMove p move = some (false, p) := by
    intro h
    apply TesseractPuzzle.applyMove_of_not_code
    by_contra hcon
    push_neg at hcon
    obtain ⟨-, ⟨k, hk⟩, ⟨d, hd⟩⟩ := hcon
    exact h ⟨k, d, (TesseractPuzzle.take_three_iff move k d).mpr ⟨hk, hd⟩⟩
  refine ⟨⟨fun hq => ?_, fun hkd => ?_⟩, hyes, hno⟩
  · by_contra hcon
    obtain ⟨q, hq⟩ := hq
    rw [hno hcon] at hq
    simp at hq
  · obtain ⟨k, d, h⟩ := hkd
    obtain ⟨q, -, hq⟩ := hyes k d h
    exact ⟨q, hq⟩

/-- C10 amended, on the text "XY0x" from the solved puzzle: it is accepted, and it acts
as the clockwise quarter turn of layer 0 of plane XY. -/
theorem tesseract_applyMove_checks_first_three_witness :
    "XY0x".toList.take 3 ≠ "YW3".toList ∧
    ((∃ q, TesseractPuzzle.applyMove TesseractPuzzle.new "XY0x" = some (true, q)) ↔
      ∃ (k : Fin 6) (d : Fin 4),
        "XY0x".toList.take 3 = (TesseractPuzzle.moveCode k d).toList) ∧
    (∃ q, TesseractPuzzle.rotateSlice TesseractPuzzle.new ((0 : Fin 6).val : Int)
        ((0 : Fin 4).val : Int) (!TesseractPuzzle.hasReversalMarker "XY0x") = some q ∧
      TesseractPuzzle.applyMove TesseractPuzzle.new "XY0x" = some (true, q)) :=
  ⟨by decide,
   (tesseract_applyMove_checks_first_three TesseractPuzzle.new "XY0x" (by decide)).1,
   (tesseract_applyMove_checks_first_three TesseractPuzzle.new "XY0x" (by decide)).2.1 0 0
     (by decide)⟩

/-! ## Rubik cube: every face move pulls the stickers back along a fixed map -/

set_option maxRecDepth 100000

namespace RubikCube

theorem rotateR_eq_pull (c : RubikCube) : rotateR c = pull c (source rotateR) := by
  ext f r k
  fin_cases f <;> fin_cases r <;> fin_cases k <;> rfl

theorem rotateL_eq_pull (c : RubikCube) : rotateL c = pull c (source rotateL) := by
  ext f r k
  fin_cases f <;> fin_cases r <;> fin_cases k <;> rfl

theorem rotateU_eq_pull (c : RubikCube) : rotateU c = pull c (source rotateU) := by
  ext f r k
  fin_cases f <;> fin_cases r <;> fin_cases k <;> rfl

theorem rotateD_eq_pull (c : RubikCube) : rotateD c = pull c (source rotateD) := by
  ext f r k
  fin_cases f <;> fin_cases r <;> fin_cases k <;> rfl

theorem rotateF_eq_pull (c : RubikCube) : rotateF c = pull c (source rotateF) := by
  ext f r k
  fin_cases f <;> fin_cases r <;> fin_cases k <;> rfl

theorem rotateB_eq_pull (c : RubikCube) : rotateB c = pull c (source rotateB) := by
  ext f r k
  fin_cases f <;> fin_cases r <;> fin_cases k <;> rfl

theorem rotateR_four (c : RubikCube) : rotateR (rotateR (rotateR (rotateR c))) = c := by
  simp only [rotateR_eq_pull]
  ext f r k
  fin_cases f <;> fin_cases r <;> fin_cases k <;> rfl

theorem rotateL_four (c : RubikCube) : rotateL (rotateL (rotateL (rotateL c))) = c := by
  simp only [rotateL_eq_pull]
  ext f r k
  fin_cases f <;> fin_cases r <;> fin_cases k <;> rfl

theorem rotateU_four (c : RubikCube) : rotateU (rotateU (rotateU (rotateU c))) = c := by
  simp only [rotateU_eq_pull]
  ext f r k
  fin_cases f <;> fin_cases r <;> fin_cases k <;> rfl

theorem rotateD_four (c : RubikCube) : rotateD (rotateD (rotateD (rotateD c))) = c := by
  simp only [rotateD_eq_pull]
  ext f r k
  fin_cases f <;> fin_cases r <;> fin_cases k <;> rfl

theorem rotateF_four (c : RubikCube) : rotateF (rotateF (rotateF (rotateF c))) = c := by
  simp only [rotateF_eq_pull]
  ext f r k
  fin_cases f <;> fin_cases r <;> fin_cases k <;> rfl

theorem rotateB_four (c : RubikCube) : rotateB (rotateB (rotateB (rotateB c))) = c := by
  simp only [rotateB_eq_pull]
  ext f r k
  fin_cases f <;> fin_cases r <;> fin_cases k <;> rfl

theorem applyMoves_ruSequence (c : RubikCube) :
    applyMoves c ruSequence = (true, rotateUPrime (rotateRPrime (rotateU (rotateR c)))) := by
  rfl

theorem applyMoves_append (c : RubikCube) (xs ys : List String) :
    applyMoves c (xs ++ ys)
      = ((applyMoves c xs).1 && (applyMoves (applyMoves c xs).2 ys).1,
          (applyMoves (applyMoves c xs).2 ys).2) := by
  induction xs generalizing c with
  | nil => simp [applyMoves]
  | cons x xs ih => simp [applyMoves, ih, Bool.and_assoc]

end RubikCube

/-- C3: for every cube state, each of the six clockwise face moves `rotateR`, `rotateL`,
`rotateU`, `rotateD`, `rotateF`, `rotateB` applied four times in a row returns exactly the
starting state. -/
theorem rubik_four_turns_identity (c : RubikCube) :
    c.rotateR.rotateR.rotateR.rotateR = c ∧
    c.rotateL.rotateL.rotateL.rotateL = c ∧
    c.rotateU.rotateU.rotateU.rotateU = c ∧
    c.rotateD.rotateD.rotateD.rotateD = c ∧
    c.rotateF.rotateF.rotateF.rotateF = c ∧
    c.rotateB.rotateB.rotateB.rotateB = c :=
  ⟨RubikCube.rotateR_four c, RubikCube.rotateL_four c, RubikCube.rotateU_four c,
    RubikCube.rotateD_four c, RubikCube.rotateF_four c, RubikCube.rotateB_four c⟩

/-- C4: for every cube state and every face X, `rotateX` followed by `rotateXPrime`
(three consecutive `rotateX` calls) returns exactly the starting state. -/
theorem rubik_move_then_prime_identity (c : RubikCube) :
    c.rotateR.rotateRPrime = c ∧
    c.rotateL.rotateLPrime = c ∧
    c.rotateU.rotateUPrime = c ∧
    c.rotateD.rotateDPrime = c ∧
    c.rotateF.rotateFPrime = c ∧
    c.rotateB.rotateBPrime = c := by
  unfold RubikCube.rotateRPrime RubikCube.rotateLPrime RubikCube.rotateUPrime
    RubikCube.rotateDPrime RubikCube.rotateFPrime RubikCube.rotateBPrime
  exact ⟨RubikCube.rotateR_four c, RubikCube.rotateL_four c, RubikCube.rotateU_four c,
    RubikCube.rotateD_four c, RubikCube.rotateF_four c, RubikCube.rotateB_four c⟩

/-- C5: from the solved cube, the sequence R, U, R', U' applied six times in a row through
`applyMove` (24 accepted moves) returns the solved cube: every sticker has its initial
value and `isSolved` is true. -/
theorem rubik_ruSequence_six_times_solved :
    RubikCube.applyMoves RubikCube.new
        (RubikCube.ruSequence ++ RubikCube.ruSequence ++ RubikCube.ruSequence ++
          RubikCube.ruSequence ++ RubikCube.ruSequence ++ RubikCube.ruSequence)
      = (true, RubikCube.new) ∧
    RubikCube.isSolved (RubikCube.applyMoves RubikCube.new
        (RubikCube.ruSequence ++ RubikCube.ruSequence ++ RubikCube.ruSequence ++
          RubikCube.ruSequence ++ RubikCube.ruSequence ++ RubikCube.ruSequence)).2 = true := by
  have h : RubikCube.applyMoves RubikCube.new
      (RubikCube.ruSequence ++ RubikCube.ruSequence ++ RubikCube.ruSequence ++
        RubikCube.ruSequence ++ RubikCube.ruSequence ++ RubikCube.ruSequence)
      = (true, RubikCube.new) := by
    simp only [RubikCube.applyMoves_append, RubikCube.applyMoves_ruSequence, Bool.and_self,
      RubikCube.rotateUPrime, RubikCube.rotateRPrime, RubikCube.rotateR_eq_pull,
      RubikCube.rotateU_eq_pull]
    congr 1
    ext f r k
    fin_cases f <;> fin_cases r <;> fin_cases k <;> rfl
  refine ⟨h, ?_⟩
  rw [h]
  decide

/-- C7: for every cube state, none of the twelve moves changes the centre sticker
`faces[f][1][1]` of any face `f`. -/
theorem rubik_centres_fixed (c : RubikCube) (f : Fin 6) :
    c.rotateR.faces f 1 1 = c.faces f 1 1 ∧
    c.rotateL.faces f 1 1 = c.faces f 1 1 ∧
    c.rotateU.faces f 1 1 = c.faces f 1 1 ∧
    c.rotateD.faces f 1 1 = c.faces f 1 1 ∧
    c.rotateF.faces f 1 1 = c.faces f 1 1 ∧
    c.rotateB.faces f 1 1 = c.faces f 1 1 ∧
    c.rotateRPrime.faces f 1 1 = c.faces f 1 1 ∧
    c.rotateLPrime.faces f 1 1 = c.faces f 1 1 ∧
    c.rotateUPrime.faces f 1 1 = c.faces f 1 1 ∧
    c.rotateDPrime.faces f 1 1 = c.faces f 1 1 ∧
    c.rotateFPrime.faces f 1 1 = c.faces f 1 1 ∧
    c.rotateBPrime.faces f 1 1 = c.faces f 1 1 := by
  simp only [RubikCube.rotateRPrime, RubikCube.rotateLPrime, RubikCube.rotateUPrime,
    RubikCube.rotateDPrime, RubikCube.rotateFPrime, RubikCube.rotateBPrime,
    RubikCube.rotateR_eq_pull, RubikCube.rotateL_eq_pull, RubikCube.rotateU_eq_pull,
    RubikCube.rotateD_eq_pull, RubikCube.rotateF_eq_pull, RubikCube.rotateB_eq_pull]
  fin_cases f <;> exact ⟨rfl, rfl, rfl, rfl, rfl, rfl, rfl, rfl, rfl, rfl, rfl, rfl⟩

/-! ## Construction, reset and the solved test -/

namespace TesseractPuzzle

/-- The loops of `initSolved` overwrite every slot with the entry of the table. -/
theorem initSolved_eq (p : TesseractPuzzle) :
    initSolved p = ⟨fun i => ⟨fun s => solvedTable i s⟩⟩ := by
  ext i s
  fin_cases i <;> fin_cases s <;> rfl

theorem new_colors (i : Fin 16) (s : Fin 4) : (new.vertices_ i).colors s = solvedTable i s := by
  unfold new
  rw [initSolved_eq]

theorem isSolved_iff_table (p : TesseractPuzzle) :
    isSolved p = true ↔ ∀ (i : Fin 16) (s : Fin 4), (p.vertices_ i).colors s = solvedTable i s := by
  simp [isSolved, List.all_eq_true, List.mem_finRange, new_colors]

end TesseractPuzzle

namespace RubikCube

/-- The loops of `reset` overwrite every sticker with the colour of its face. -/
theorem reset_eq (c : RubikCube) : reset c = new := by
  ext f r k
  fin_cases f <;> fin_cases r <;> fin_cases k <;> rfl

theorem isSolved_iff_faceColors (c : RubikCube) :
    isSolved c = true ↔ ∀ (f : Fin 6) (r k : Fin 3), c.faces f r k = faceColors f := by
  simp [isSolved, List.all_eq_true, List.mem_finRange]

end RubikCube

/-- C11: for every cube state and each of the twelve tokens R, R', L, L', U, U', D, D', F,
F', B, B', `applyMove(token)` returns `true` and leaves the cube in the state produced by
the rotation of the same name. -/
theorem rubik_applyMove_tokens (c : RubikCube) :
    c.applyMove "R" = (true, c.rotateR) ∧
    c.applyMove "R'" = (true, c.rotateRPrime) ∧
    c.applyMove "L" = (true, c.rotateL) ∧
    c.applyMove "L'" = (true, c.rotateLPrime) ∧
    c.applyMove "U" = (true, c.rotateU) ∧
    c.applyMove "U'" = (true, c.rotateUPrime) ∧
    c.applyMove "D" = (true, c.rotateD) ∧
    c.applyMove "D'" = (true, c.rotateDPrime) ∧
    c.applyMove "F" = (true, c.rotateF) ∧
    c.applyMove "F'" = (true, c.rotateFPrime) ∧
    c.applyMove "B" = (true, c.rotateB) ∧
    c.applyMove "B'" = (true, c.rotateBPrime) :=
  ⟨rfl, rfl, rfl, rfl, rfl, rfl, rfl, rfl, rfl, rfl, rfl, rfl⟩

namespace RubikCube

theorem applyMove_of_not_token (c : RubikCube) (move : String)
    (h : ∀ k : Fin 12, move ≠ moves k) : applyMove c move = (false, c) := by
  have h0 := h 0
  have h1 := h 1
  have h2 := h 2
  have h3 := h 3
  have h4 := h 4
  have h5 := h 5
  have h6 := h 6
  have h7 := h 7
  have h8 := h 8
  have h9 := h 9
  have h10 := h 10
  have h11 := h 11
  simp only [moves] at h0 h1 h2 h3 h4 h5 h6 h7 h8 h9 h10 h11
  unfold applyMove
  rw [if_neg h0, if_neg h1, if_neg h2, if_neg h3, if_neg h4, if_neg h5, if_neg h6, if_neg h7,
    if_neg h8, if_neg h9, if_neg h10, if_neg h11]

theorem applyMove_of_token (c : RubikCube) (k : Fin 12) : (applyMove c (moves k)).1 = true := by
  fin_cases k <;> rfl

end RubikCube

/-- C12: for every cube state and every string that is not one of the twelve tokens,
`applyMove` returns `false` and leaves all 54 stickers unchanged; hence it returns `true`
only for the twelve tokens. -/
theorem rubik_applyMove_rejects (c : RubikCube) (move : String)
    (h : ∀ k : Fin 12, move ≠ RubikCube.moves k) :
    c.applyMove move = (false, c) ∧
    (∀ (f : Fin 6) (r k : Fin 3), (c.applyMove move).2.faces f r k = c.faces f r k) ∧
    (∀ (c2 : RubikCube) (m : String),
      (c2.applyMove m).1 = true ↔ ∃ k : Fin 12, m = RubikCube.moves k) := by
  have e := RubikCube.applyMove_of_not_token c move h
  refine ⟨e, ?_, ?_⟩
  · intro f r k
    rw [e]
  · intro c2 m
    constructor
    · intro ht
      by_contra hcon
      push_neg at hcon
      rw [RubikCube.applyMove_of_not_token c2 m hcon] at ht
      exact Bool.false_ne_true ht
    · rintro ⟨k, rfl⟩
      exact RubikCube.applyMove_of_token c2 k

/-- C12 on the texts "Z", "", "r", "R2" and "R " from the constructed cube. -/
theorem rubik_applyMove_rejects_witness :
    RubikCube.new.applyMove "Z" = (false, RubikCube.new) ∧
    RubikCube.new.applyMove "" = (false, RubikCube.new) ∧
    RubikCube.new.applyMove "r" = (false, RubikCube.new) ∧
    RubikCube.new.applyMove "R2" = (false, RubikCube.new) ∧
    RubikCube.new.applyMove "R " = (false, RubikCube.new) :=
  ⟨(rubik_applyMove_rejects _ "Z" (by decide)).1,
   (rubik_applyMove_rejects _ "" (by decide)).1,
   (rubik_applyMove_rejects _ "r" (by decide)).1,
   (rubik_applyMove_rejects _ "R2" (by decide)).1,
   (rubik_applyMove_rejects _ "R " (by decide)).1⟩

/-- C13: a freshly constructed `TesseractPuzzle` reports `isSolved() == true`, and from
every state `reset()` produces the state of a freshly constructed puzzle, for which
`isSolved()` is true. -/
theorem tesseract_new_solved_and_reset (p : TesseractPuzzle) :
    TesseractPuzzle.new.isSolved = true ∧
    p.reset = TesseractPuzzle.new ∧
    p.reset.isSolved = true := by
  have hr : p.reset = TesseractPuzzle.new := by
    unfold TesseractPuzzle.reset TesseractPuzzle.new
    rw [TesseractPuzzle.initSolved_eq, TesseractPuzzle.initSolved_eq]
  have hs : TesseractPuzzle.new.isSolved = true :=
    (TesseractPuzzle.isSolved_iff_table _).mpr (fun i s => TesseractPuzzle.new_colors i s)
  exact ⟨hs, hr, hr ▸ hs⟩

/-- C14: a freshly constructed `RubikCube` reports `isSolved() == true`, and from every
cube state `reset()` produces six solid-coloured faces, the state of a freshly constructed
cube, for which `isSolved()` is true. -/
theorem rubik_new_solved_and_reset (c : RubikCube) :
    RubikCube.new.isSolved = true ∧
    c.reset = RubikCube.new ∧
    (∀ (f : Fin 6) (r k : Fin 3), c.reset.faces f r k = RubikCube.faceColors f) ∧
    c.reset.isSolved = true := by
  have hr : c.reset = RubikCube.new := RubikCube.reset_eq c
  have hs : RubikCube.new.isSolved = true :=
    (RubikCube.isSolved_iff_faceColors _).mpr (fun _ _ _ => rfl)
  refine ⟨hs, hr, ?_, hr ▸ hs⟩
  intro f r k
  rw [hr]
  rfl

/-- C15: `isSolved()` is true if and only if every one of the 16 x 4 colour slots equals
the same slot of a freshly constructed puzzle, that is, if and only if the state is the
constructed one; a state differing from it in any slot is reported as not solved. -/
theorem tesseract_isSolved_iff (p : TesseractPuzzle) :
    (p.isSolved = true ↔ ∀ (i : Fin 16) (s : Fin 4),
      (p.vertices_ i).colors s = (TesseractPuzzle.new.vertices_ i).colors s) ∧
    (p.isSolved = true ↔ p = TesseractPuzzle.new) ∧
    (∀ (i : Fin 16) (s : Fin 4),
      (p.vertices_ i).colors s ≠ (TesseractPuzzle.new.vertices_ i).colors s →
      p.isSolved = false) := by
  have h1 : p.isSolved = true ↔ ∀ (i : Fin 16) (s : Fin 4),
      (p.vertices_ i).colors s = (TesseractPuzzle.new.vertices_ i).colors s := by
    rw [TesseractPuzzle.isSolved_iff_table]
    simp only [TesseractPuzzle.new_colors]
  refine ⟨h1, ?_, ?_⟩
  · rw [h1]
    constructor
    · intro h
      ext i s
      exact h i s
    · intro h i s
      rw [h]
  · intro i s hne
    by_contra hcon
    rw [Bool.not_eq_false] at hcon
    exact hne (h1.mp hcon i s)

/-- C16: `isSolved()` is true if and only if every one of the 54 stickers equals the home
colour of its face, that is, if and only if the cube state is the freshly constructed one. -/
theorem rubik_isSolved_iff (c : RubikCube) :
    (c.isSolved = true ↔
      ∀ (f : Fin 6) (r k : Fin 3), c.faces f r k = RubikCube.faceColors f) ∧
    (c.isSolved = true ↔ c = RubikCube.new) := by
  have h1 := RubikCube.isSolved_iff_faceColors c
  refine ⟨h1, ?_⟩
  rw [h1]
  constructor
  · intro h
    ext f r k
    exact h f r k
  · intro h f r k
    rw [h]
    rfl

/-- C15 on the constructed puzzle with slot 0 of vertex 0 overwritten by the value 9. -/
theorem tesseract_isSolved_iff_witness :
    ((TesseractPuzzle.new.setColor 0 0 9).vertices_ 0).colors 0
      ≠ (TesseractPuzzle.new.vertices_ 0).colors 0 ∧
    (TesseractPuzzle.new.setColor 0 0 9).isSolved = false :=
  ⟨by decide, (tesseract_isSolved_iff (TesseractPuzzle.new.setColor 0 0 9)).2.2 0 0 (by decide)⟩

/-- C17: in the constructed (solved) puzzle, for all coordinates `ix, iy, iz, iw` in
`{0, 1}` the vertex `getVertex(ix, iy, iz, iw)` is the array element with index
`ix*8 + iy*4 + iz*2 + iw`, and its slot `k` holds the positive-cell colour of axis `k`
(the number `2k`) when the `k`-th coordinate is 1 and the negative-cell colour (the number
`2k + 1`) when it is 0. -/
theorem tesseract_solved_vertex_colors (ix iy iz iw : Int)
    (hx : ix = 0 ∨ ix = 1) (hy : iy = 0 ∨ iy = 1) (hz : iz = 0 ∨ iz = 1)
    (hw : iw = 0 ∨ iw = 1) :
    ∃ v : Vertex4D,
      TesseractPuzzle.new.getVertex ix iy iz iw = some v ∧
      (∀ n : Fin 16, (n.val : Int) = ix * 8 + iy * 4 + iz * 2 + iw →
        v = TesseractPuzzle.new.vertices_ n) ∧
      (∀ k : Fin 4, v.colors k =
        if ![ix, iy, iz, iw] k = 1 then ![C_X_POS, C_Y_POS, C_Z_POS, C_W_POS] k
        else ![C_X_NEG, C_Y_NEG, C_Z_NEG, C_W_NEG] k) ∧
      (∀ k : Fin 4, v.colors k =
        if ![ix, iy, iz, iw] k = 1 then 2 * (k.val : Int) else 2 * (k.val : Int) + 1) := by
  refine ⟨TesseractPuzzle.new.vertices_
    ⟨(TesseractPuzzle.vertexIndex ix iy iz iw).toNat % 16, Nat.mod_lt _ (by decide)⟩,
    ?_, ?_, ?_, ?_⟩
  · rcases hx with rfl | rfl <;> rcases hy with rfl | rfl <;> rcases hz with rfl | rfl <;>
      rcases hw with rfl | rfl <;> rfl
  · intro n hn
    congr 1
    apply Fin.ext
    show (ix * 8 + iy * 4 + iz * 2 + iw).toNat % 16 = (n : Nat)
    omega
  · rcases hx with rfl | rfl <;> rcases hy with rfl | rfl <;> rcases hz with rfl | rfl <;>
      rcases hw with rfl | rfl <;> intro k <;> fin_cases k <;> rfl
  · rcases hx with rfl | rfl <;> rcases hy with rfl | rfl <;> rcases hz with rfl | rfl <;>
      rcases hw with rfl | rfl <;> intro k <;> fin_cases k <;> rfl

/-- C17 at the vertex `(1, 0, 1, 0)`, array element 10. -/
theorem tesseract_solved_vertex_colors_witness :
    ∃ v : Vertex4D,
      TesseractPuzzle.new.getVertex 1 0 1 0 = some v ∧
      (∀ n : Fin 16, (n.val : Int) = 1 * 8 + 0 * 4 + 1 * 2 + 0 →
        v = TesseractPuzzle.new.vertices_ n) ∧
      (∀ k : Fin 4, v.colors k =
        if ![(1 : Int), 0, 1, 0] k = 1 then ![C_X_POS, C_Y_POS, C_Z_POS, C_W_POS] k
        else ![C_X_NEG, C_Y_NEG, C_Z_NEG, C_W_NEG] k) ∧
      (∀ k : Fin 4, v.colors k =
        if ![(1 : Int), 0, 1, 0] k = 1 then 2 * (k.val : Int) else 2 * (k.val : Int) + 1) :=
  tesseract_solved_vertex_colors 1 0 1 0 (Or.inr rfl) (Or.inl rfl) (Or.inr rfl) (Or.inl rfl)

/-- C18 as stated fails: in a freshly constructed cube the Right face (index 0) holds RED,
the colour 2, on every sticker, not the colour 0; likewise faces 1, 2, 3 hold the colours
3, 0, 1. -/
theorem rubik_new_face_colour_differs :
    RubikCube.new.getColor 0 0 0 = some 2 ∧
    RubikCube.new.getColor 0 0 0 ≠ some 0 ∧
    RubikCube.new.getColor 1 1 1 = some 3 ∧
    RubikCube.new.getColor 2 1 1 = some 0 ∧
    RubikCube.new.getColor 3 1 1 = some 1 := by
  decide

/-- C18, amended: in a freshly constructed cube every sticker of face `i` (`i` in `0..5`,
row and column in `0..2`) holds `faceColors[i]`, where `faceColors` is RED, ORANGE, WHITE,
YELLOW, GREEN, BLUE, numerically 2, 3, 0, 1, 4, 5; the colour equals the face index only
on faces 4 and 5. -/
theorem rubik_new_face_colours (i row col : Int) (hi : 0 ≤ i ∧ i ≤ 5)
    (hr : 0 ≤ row ∧ row ≤ 2) (hc : 0 ≤ col ∧ col ≤ 2) :
    RubikCube.new.getColor i row col
      = some (if i = 0 then RED else if i = 1 then ORANGE else if i = 2 then WHITE
          else if i = 3 then YELLOW else if i = 4 then GREEN else BLUE) ∧
    RubikCube.new.getColor i row col
      = some (if i = 0 then 2 else if i = 1 then 3 else if i = 2 then 0
          else if i = 3 then 1 else i) ∧
    (RubikCube.new.getColor i row col = some i ↔ i = 4 ∨ i = 5) := by
  obtain ⟨hi0, hi5⟩ := hi
  obtain ⟨hr0, hr2⟩ := hr
  obtain ⟨hc0, hc2⟩ := hc
  interval_cases i <;> interval_cases row <;> interval_cases col <;> decide

/-- C18 amended, at sticker `(0, 0, 0)` of the Right face. -/
theorem rubik_new_face_colours_witness :
    RubikCube.new.getColor 0 0 0
      = some (if (0 : Int) = 0 then RED else if (0 : Int) = 1 then ORANGE
          else if (0 : Int) = 2 then WHITE else if (0 : Int) = 3 then YELLOW
          else if (0 : Int) = 4 then GREEN else BLUE) :=
  (rubik_new_face_colours 0 0 0 (by decide) (by decide) (by decide)).1

/-- C19: `scramble(0)` is a no-op on both puzzles, whatever the random draws: every
tesseract state and every cube state is returned unchanged, and a solved puzzle stays
solved. -/
theorem scramble_zero_noop (p : TesseractPuzzle) (c : RubikCube)
    (tdraws : Nat → Fin 6 × Fin 4 × Fin 2) (rdraws : Nat → Fin 12) :
    p.scramble tdraws 0 = some p ∧
    c.scramble rdraws 0 = c ∧
    (TesseractPuzzle.new.scramble tdraws 0).map TesseractPuzzle.isSolved = some true ∧
    (RubikCube.new.scramble rdraws 0).isSolved = true := by
  have ht : ∀ q : TesseractPuzzle, q.scramble tdraws 0 = some q := fun _ => rfl
  have hr : ∀ d : RubikCube, d.scramble rdraws 0 = d := fun _ => rfl
  refine ⟨ht p, hr c, ?_, ?_⟩
  · rw [ht]
    exact congrArg some ((TesseractPuzzle.isSolved_iff_table _).mpr
      (fun i s => TesseractPuzzle.new_colors i s))
  · rw [hr]
    exact (RubikCube.isSolved_iff_faceColors _).mpr (fun _ _ _ => rfl)

namespace TesseractPuzzle

theorem isVertexInSlice_XY0 (v : Int) :
    isVertexInSlice v PLANE_XY 0 = true ↔ v = 0 ∨ v = 4 ∨ v = 8 ∨ v = 12 := by
  have hidx : getLayerIndices PLANE_XY 0 = ![0, 8, 12, 4] := by decide
  unfold isVertexInSlice
  simp only [hidx, List.any_eq_true, List.mem_finRange, true_and, decide_eq_true_eq,
    Fin.exists_fin_succ, Matrix.cons_val_zero, Matrix.cons_val_succ, Fin.exists_fin_zero_pi]
  simp
  omega

end TesseractPuzzle

/-- C20: `isVertexInSlice(idx, PLANE_XY, 0)` is true for exactly the four vertex indices
0, 4, 8, 12, and these are exactly the vertices that `rotateSlice(PLANE_XY, 0, dir)`
changes: on the constructed puzzle each of the four changes, in both directions, and from
every state, in both directions, every other vertex keeps its contents. -/
theorem tesseract_isVertexInSlice_XY0_matches_rotateSlice :
    (∀ v : Int, TesseractPuzzle.isVertexInSlice v PLANE_XY 0 = true ↔
      v = 0 ∨ v = 4 ∨ v = 8 ∨ v = 12) ∧
    (Finset.univ.filter (fun v : Fin 16 =>
      TesseractPuzzle.isVertexInSlice (v.val : Int) PLANE_XY 0 = true)).card = 4 ∧
    (∀ cw : Bool, ∃ q, TesseractPuzzle.new.rotateSlice PLANE_XY 0 cw = some q ∧
      ∀ v : Fin 16, TesseractPuzzle.isVertexInSlice (v.val : Int) PLANE_XY 0 = true →
        q.vertices_ v ≠ TesseractPuzzle.new.vertices_ v) ∧
    (∀ (p : TesseractPuzzle) (cw : Bool), ∃ q, p.rotateSlice PLANE_XY 0 cw = some q ∧
      ∀ v : Fin 16, TesseractPuzzle.isVertexInSlice (v.val : Int) PLANE_XY 0 = false →
        q.vertices_ v = p.vertices_ v) := by
  refine ⟨TesseractPuzzle.isVertexInSlice_XY0, by decide, ?_, ?_⟩
  · intro cw
    refine ⟨TesseractPuzzle.new.rotateAt ![0, 8, 12, 4] 0 1 cw, rfl, ?_⟩
    have hdiff : ∀ v : Fin 16,
        TesseractPuzzle.isVertexInSlice (v.val : Int) PLANE_XY 0 = true →
        ∃ s : Fin 4, ((TesseractPuzzle.new.rotateAt ![0, 8, 12, 4] 0 1 cw).vertices_ v).colors s
          ≠ (TesseractPuzzle.new.vertices_ v).colors s := by
      cases cw <;> decide
    intro v hv heq
    obtain ⟨s, hs⟩ := hdiff v hv
    exact hs (by rw [heq])
  · intro p cw
    refine ⟨p.rotateAt ![0, 8, 12, 4] 0 1 cw, rfl, ?_⟩
    intro v hv
    apply TesseractPuzzle.rotateAt_other
    intro k hk
    have hnot : ¬ ((v.val : Int) = 0 ∨ (v.val : Int) = 4 ∨ (v.val : Int) = 8 ∨
        (v.val : Int) = 12) := by
      rw [← TesseractPuzzle.isVertexInSlice_XY0, hv]
      exact Bool.false_ne_true
    subst hk
    apply hnot
    fin_cases k
    · left; rfl
    · right; right; left; rfl
    · right; right; right; rfl
    · right; left; rfl

/-! ## 4D rotation matrices -/

/-- The sixteen entries of the XY rotation matrix, in storage order. -/
theorem rotate4D_XY_entries {K : Type} [Field K] (cos sin : K → K) (pi angleDeg : K) :
    (rotate4D cos sin pi PLANE_XY angleDeg).m 0 = cos (angleDeg * (pi / 180)) ∧
    (rotate4D cos sin pi PLANE_XY angleDeg).m 1 = -sin (angleDeg * (pi / 180)) ∧
    (rotate4D cos sin pi PLANE_XY angleDeg).m 2 = 0 ∧
    (rotate4D cos sin pi PLANE_XY angleDeg).m 3 = 0 ∧
    (rotate4D cos sin pi PLANE_XY angleDeg).m 4 = sin (angleDeg * (pi / 180)) ∧
    (rotate4D cos sin pi PLANE_XY angleDeg).m 5 = cos (angleDeg * (pi / 180)) ∧
    (rotate4D cos sin pi PLANE_XY angleDeg).m 6 = 0 ∧
    (rotate4D cos sin pi PLANE_XY angleDeg).m 7 = 0 ∧
    (rotate4D cos sin pi PLANE_XY angleDeg).m 8 = 0 ∧
    (rotate4D cos sin pi PLANE_XY angleDeg).m 9 = 0 ∧
    (rotate4D cos sin pi PLANE_XY angleDeg).m 10 = 1 ∧
    (rotate4D cos sin pi PLANE_XY angleDeg).m 11 = 0 ∧
    (rotate4D cos sin pi PLANE_XY angleDeg).m 12 = 0 ∧
    (rotate4D cos sin pi PLANE_XY angleDeg).m 13 = 0 ∧
    (rotate4D cos sin pi PLANE_XY angleDeg).m 14 = 0 ∧
    (rotate4D cos sin pi PLANE_XY angleDeg).m 15 = 1 :=
  ⟨rfl, rfl, rfl, rfl, rfl, rfl, rfl, rfl, rfl, rfl, rfl, rfl, rfl, rfl, rfl, rfl⟩

/-- C30: with exact real arithmetic and `c = cos(angle)`, `s = sin(angle)`, `matMul` of
`rotate4D(PLANE_XY, angle)` and `(1, 0, 0, 0)` is `(c, -s, 0, 0)`; a rotation by 90 degrees
in the XY plane maps `(1, 0, 0, 0)` to `(0, -1, 0, 0)`; and an XY rotation leaves the z and
w components of every vector unchanged. -/
theorem rotate4D_XY_real (angleDeg : ℝ) :
    matMul (rotate4D Real.cos Real.sin Real.pi PLANE_XY angleDeg) ⟨1, 0, 0, 0⟩
      = ⟨Real.cos (angleDeg * (Real.pi / 180)), -Real.sin (angleDeg * (Real.pi / 180)), 0, 0⟩ ∧
    matMul (rotate4D Real.cos Real.sin Real.pi PLANE_XY 90) ⟨1, 0, 0, 0⟩ = ⟨0, -1, 0, 0⟩ ∧
    ∀ v : Vec4 ℝ,
      (matMul (rotate4D Real.cos Real.sin Real.pi PLANE_XY angleDeg) v).z = v.z ∧
      (matMul (rotate4D Real.cos Real.sin Real.pi PLANE_XY angleDeg) v).w = v.w := by
  have h90 : (90 : ℝ) * (Real.pi / 180) = Real.pi / 2 := by ring
  obtain ⟨a0, a1, a2, a3, a4, a5, a6, a7, a8, a9, a10, a11, a12, a13, a14, a15⟩ :=
    rotate4D_XY_entries Real.cos Real.sin Real.pi angleDeg
  obtain ⟨b0, b1, b2, b3, -⟩ := rotate4D_XY_entries Real.cos Real.sin Real.pi 90
  refine ⟨?_, ?_, fun v => ⟨?_, ?_⟩⟩
  · ext <;> simp [matMul, a0, a1, a2, a3]
  · ext <;> simp [matMul, b0, b1, b2, b3, h90]
  · simp [matMul, a2, a6, a10, a14]
  · simp [matMul, a3, a7, a11, a15]

/-! ## Tesseract: planes outside `0..5` -/

namespace TesseractPuzzle

/-- For a plane outside `0..5` both `switch` statements take their `default` branch:
the call turns the vertices 0, 1, 2, 3 and exchanges slots 0 and 1, whatever the layer. -/
theorem rotateSlice_default (p : TesseractPuzzle) (plane layer : Int) (cw : Bool)
    (h : plane < 0 ∨ 5 < plane) :
    rotateSlice p plane layer cw = some (rotateAt p ![0, 1, 2, 3] 0 1 cw) := by
  have h0 : plane ≠ PLANE_XY := by unfold PLANE_XY; omega
  have h1 : plane ≠ PLANE_XZ := by unfold PLANE_XZ; omega
  have h2 : plane ≠ PLANE_XW := by unfold PLANE_XW; omega
  have h3 : plane ≠ PLANE_YZ := by unfold PLANE_YZ; omega
  have h4 : plane ≠ PLANE_YW := by unfold PLANE_YW; omega
  have h5 : plane ≠ PLANE_ZW := by unfold PLANE_ZW; omega
  have hidx : getLayerIndices plane layer = ![0, 1, 2, 3] := by
    unfold getLayerIndices
    simp only [if_neg h0, if_neg h1, if_neg h2, if_neg h3, if_neg h4, if_neg h5]
  have hswap : getSlotSwap plane = (0, 1) := by
    unfold getSlotSwap
    simp only [if_neg h0, if_neg h1, if_neg h2, if_neg h3, if_neg h4, if_neg h5]
  unfold rotateSlice
  rw [hidx, hswap]
  rfl

theorem defaultSlice_injective :
    Function.Injective (![0, 1, 2, 3] : Fin 4 → Fin 16) := by
  decide

end TesseractPuzzle

/-- C21 as stated fails: with the plane values 6 and -1 (layer 0), `rotateSlice` changes
the constructed puzzle: afterwards slot 0 of vertex 1 holds the colour 3 instead of 1, and
`isSolved()` is false. -/
theorem tesseract_rotateSlice_bad_plane_not_identity :
    (TesseractPuzzle.new.rotateSlice 6 0 true).map (fun q => (q.vertices_ 1).colors 0) = some 3 ∧
    (TesseractPuzzle.new.vertices_ 1).colors 0 = 1 ∧
    (TesseractPuzzle.new.rotateSlice 6 0 true).map TesseractPuzzle.isSolved = some false ∧
    (TesseractPuzzle.new.rotateSlice 6 0 false).map TesseractPuzzle.isSolved = some false ∧
    (TesseractPuzzle.new.rotateSlice (-1) 0 true).map TesseractPuzzle.isSolved = some false := by
  decide

/-- C21, amended: for any plane value outside `0..5`, any layer and either direction,
`rotateSlice` falls back to the default slice: it performs the quarter turn on the vertices
0, 1, 2, 3 with slots 0 and 1 exchanged (clockwise, vertex `k + 1` receives the old vertex
`k`; counterclockwise, vertex `k` receives the old vertex `k + 1`, both modulo 4) and
leaves the vertices 4..15 as they were; four equal calls restore the state. -/
theorem tesseract_rotateSlice_bad_plane_default (p : TesseractPuzzle) (plane layer : Int)
    (cw : Bool) (h : plane < 0 ∨ 5 < plane) :
    (∃ q, p.rotateSlice plane layer cw = some q ∧
      (cw = true → ∀ k : Fin 4, q.vertices_ (Fin.castLE (by decide) (k + 1))
        = (p.vertices_ (Fin.castLE (by decide) k)).swapColors 0 1) ∧
      (cw = false → ∀ k : Fin 4, q.vertices_ (Fin.castLE (by decide) k)
        = (p.vertices_ (Fin.castLE (by decide) (k + 1))).swapColors 0 1) ∧
      (∀ v : Fin 16, 4 ≤ v.val → q.vertices_ v = p.vertices_ v)) ∧
    TesseractPuzzle.rotateSlices p (List.replicate 4 (plane, layer, cw)) = some p := by
  have hcast : ∀ k : Fin 4, (Fin.castLE (by decide) k : Fin 16) = ![0, 1, 2, 3] k := by
    decide
  have hinj := TesseractPuzzle.defaultSlice_injective
  refine ⟨⟨_, TesseractPuzzle.rotateSlice_default p plane layer cw h, ?_, ?_, ?_⟩, ?_⟩
  · rintro rfl k
    rw [hcast, hcast, TesseractPuzzle.rotateAt_slice p _ hinj]
    congr 2
    fin_cases k <;> rfl
  · rintro rfl k
    rw [hcast, hcast, TesseractPuzzle.rotateAt_slice p _ hinj]
    rfl
  · intro v hv
    apply TesseractPuzzle.rotateAt_other
    intro k hk
    subst hk
    revert hv
    fin_cases k <;> decide
  · simp only [List.replicate, TesseractPuzzle.rotateSlices,
      TesseractPuzzle.rotateSlice_default _ plane layer cw h, Option.some_bind,
      TesseractPuzzle.rotateAt_four _ _ hinj]

/-- C21 amended, at plane 6, layer 0, clockwise, from the constructed puzzle. -/
theorem tesseract_rotateSlice_bad_plane_default_witness :
    ((6 : Int) < 0 ∨ (5 : Int) < 6) ∧
    TesseractPuzzle.rotateSlices TesseractPuzzle.new (List.replicate 4 (6, 0, true))
      = some TesseractPuzzle.new :=
  ⟨by decide,
   (tesseract_rotateSlice_bad_plane_default TesseractPuzzle.new 6 0 true (by decide)).2⟩

/-! ## Tesseract: the slices computed by `getLayerIndices` -/

namespace TesseractPuzzle

/-- For the planes XY, XZ, XW, YZ and ZW and every layer in `0..3`, the vertices selected
by `isVertexInSlice` are exactly the cross-section the specification describes. -/
theorem isVertexInSlice_iff_specSlice (plane layer : Int) (hp : 0 ≤ plane ∧ plane ≤ 5)
    (hl : 0 ≤ layer ∧ layer ≤ 3) (hne : plane ≠ PLANE_YW) (v : Fin 16) :
    isVertexInSlice (v.val : Int) plane layer = true ↔ specSlice plane layer (v.val : Int) := by
  obtain ⟨hp0, hp5⟩ := hp
  obtain ⟨hl0, hl3⟩ := hl
  revert v
  interval_cases plane <;> interval_cases layer <;>
    first
    | exact absurd (Eq.refl PLANE_YW) hne
    | decide

/-- Away from layer 3 of `PLANE_YW`, the four slice subscripts of a plane in `0..5` and a
layer in `0..3` lie in `0..15` and are pairwise distinct. -/
theorem getLayerIndices_inBounds (plane layer : Int) (hp : 0 ≤ plane ∧ plane ≤ 5)
    (hl : 0 ≤ layer ∧ layer ≤ 3) (hne : ¬ (plane = PLANE_YW ∧ layer = 3)) :
    (∀ k : Fin 4, 0 ≤ getLayerIndices plane layer k ∧ getLayerIndices plane layer k ≤ 15) ∧
    Function.Injective (getLayerIndices plane layer) := by
  obtain ⟨idx, hidx, hcast, -⟩ := rotateSlice_eq_rotateAt plane layer hp hl hne
  refine ⟨fun k => ?_, fun i j hij => ?_⟩
  · rw [← hcast k]
    have := (idx k).isLt
    omega
  · rw [← hcast i, ← hcast j] at hij
    apply hidx
    apply Fin.ext
    omega

end TesseractPuzzle

/-- C22, at an input where it fails: layer 0 of plane YW.  `getLayerIndices` returns the
subscripts 0, 4, 6, 2, so `isVertexInSlice` selects vertex 6 = (0, 1, 1, 0), whose Z
coordinate is 1 and not `b = 0`, and does not select vertex 1 = (0, 0, 0, 1), which lies in
the cross-section X = 0, Z = 0 that the claim describes (the vertices 0, 4, 5, 1). -/
theorem tesseract_YW_slice_not_cross_section :
    getLayerIndices PLANE_YW 0 = ![0, 4, 6, 2] ∧
    TesseractPuzzle.isVertexInSlice 6 PLANE_YW 0 = true ∧
    ¬ TesseractPuzzle.specSlice PLANE_YW 0 6 ∧
    TesseractPuzzle.isVertexInSlice 1 PLANE_YW 0 = false ∧
    TesseractPuzzle.specSlice PLANE_YW 0 1 ∧
    (∀ v : Fin 16, TesseractPuzzle.specSlice PLANE_YW 0 (v.val : Int) ↔
      v = 0 ∨ v = 4 ∨ v = 5 ∨ v = 1) := by
  decide

/-- C23, at the input where it fails: for layer 3 of plane YW the subscripts computed by
`getLayerIndices` do not all lie in `0..15` (the third is 16), and the move "YW3" that
`scramble` generates for the draws `(4, 3, 0)` makes `rotateSlice` index out of bounds. -/
theorem tesseract_YW3_index_out_of_range (p : TesseractPuzzle) :
    ¬ (∀ k : Fin 4, 0 ≤ getLayerIndices PLANE_YW 3 k ∧ getLayerIndices PLANE_YW 3 k ≤ 15) ∧
    TesseractPuzzle.scrambleStep p (4, 3, 0) = none ∧
    TesseractPuzzle.scrambleStep p (4, 3, 1) = none :=
  ⟨by decide, rfl, rfl⟩

namespace TesseractPuzzle

/-- Away from layer 3 of `PLANE_YW`: a clockwise `rotateSlice` puts at `idx[(i+1) mod 4]`
the old vertex at `idx[i]` with the two slots of the plane exchanged, and a
counterclockwise one puts at `idx[i]` the old vertex at `idx[(i+1) mod 4]`, likewise
exchanged; `idx` are the subscripts computed by `getLayerIndices`. -/
theorem rotateSlice_cycle_inBounds (p : TesseractPuzzle) (plane layer : Int)
    (hp : 0 ≤ plane ∧ plane ≤ 5) (hl : 0 ≤ layer ∧ layer ≤ 3)
    (hne : ¬ (plane = PLANE_YW ∧ layer = 3)) :
    ∃ idx : Fin 4 → Fin 16,
      (∀ k, ((idx k : Nat) : Int) = getLayerIndices plane layer k) ∧
      (∃ q, rotateSlice p plane layer true = some q ∧ ∀ i : Fin 4,
        q.vertices_ (idx (i + 1))
          = (p.vertices_ (idx i)).swapColors (getSlotSwap plane).1 (getSlotSwap plane).2) ∧
      (∃ q, rotateSlice p plane layer false = some q ∧ ∀ i : Fin 4,
        q.vertices_ (idx i)
          = (p.vertices_ (idx (i + 1))).swapColors (getSlotSwap plane).1
              (getSlotSwap plane).2) := by
  obtain ⟨idx, hidx, hcast, h⟩ := rotateSlice_eq_rotateAt plane layer hp hl hne
  refine ⟨idx, hcast, ⟨_, h p true, fun i => ?_⟩, ⟨_, h p false, fun i => ?_⟩⟩
  · rw [rotateAt_slice p idx hidx]
    congr 2
    fin_cases i <;> rfl
  · rw [rotateAt_slice p idx hidx]
    rfl

/-- The axis pair of each plane, as `getSlotSwap` returns it. -/
theorem getSlotSwap_table :
    getSlotSwap PLANE_XY = (0, 1) ∧ getSlotSwap PLANE_XZ = (0, 2) ∧
    getSlotSwap PLANE_XW = (0, 3) ∧ getSlotSwap PLANE_YZ = (1, 2) ∧
    getSlotSwap PLANE_YW = (1, 3) ∧ getSlotSwap PLANE_ZW = (2, 3) := by
  decide

/-- Away from layer 3 of `PLANE_YW`, `rotateSlice` leaves every vertex outside its slice
as it was. -/
theorem rotateSlice_frame_inBounds (p : TesseractPuzzle) (plane layer : Int) (cw : Bool)
    (hp : 0 ≤ plane ∧ plane ≤ 5) (hl : 0 ≤ layer ∧ layer ≤ 3)
    (hne : ¬ (plane = PLANE_YW ∧ layer = 3)) :
    ∃ q, rotateSlice p plane layer cw = some q ∧
      ∀ v : Fin 16, isVertexInSlice (v.val : Int) plane layer = false →
        q.vertices_ v = p.vertices_ v := by
  obtain ⟨idx, -, hcast, h⟩ := rotateSlice_eq_rotateAt plane layer hp hl hne
  refine ⟨_, h p cw, fun v hv => ?_⟩
  apply rotateAt_other
  intro k hk
  have hin : isVertexInSlice (v.val : Int) plane layer = true := by
    unfold isVertexInSlice
    simp only [List.any_eq_true, List.mem_finRange, true_and, decide_eq_true_eq]
    exact ⟨k, by rw [← hcast k, hk]⟩
  rw [hv] at hin
  exact Bool.false_ne_true hin

end TesseractPuzzle

/-- C24, at the input where it fails: for layer 3 of plane YW (axis pair `(1, 3)`) the
slice subscript `idx[2]` is 16, so there is no vertex at `idx[2]` and `rotateSlice`, in
either direction, yields no state in which the slice vertices have been cycled. -/
theorem tesseract_rotateSlice_cycle_YW3_out_of_bounds (p : TesseractPuzzle) (cw : Bool) :
    getLayerIndices PLANE_YW 3 2 = 16 ∧
    getSlotSwap PLANE_YW = (1, 3) ∧
    ∀ q : TesseractPuzzle, p.rotateSlice PLANE_YW 3 cw ≠ some q := by
  refine ⟨by decide, by decide, fun q hq => ?_⟩
  rw [TesseractPuzzle.rotateSlice_YW3] at hq
  exact Option.noConfusion hq

/-- C27, at the input where it fails: vertex 0 is outside the slice of layer 3 of plane
YW, yet `rotateSlice(PLANE_YW, 3, dir)` yields no state at all in which the vertices
outside the slice are unchanged, because the call indexes `vertices_[16]`. -/
theorem tesseract_rotateSlice_frame_YW3_out_of_bounds (p : TesseractPuzzle) (cw : Bool) :
    TesseractPuzzle.isVertexInSlice 0 PLANE_YW 3 = false ∧
    ¬ ∃ q, p.rotateSlice PLANE_YW 3 cw = some q ∧
      ∀ v : Fin 16, TesseractPuzzle.isVertexInSlice (v.val : Int) PLANE_YW 3 = false →
        q.vertices_ v = p.vertices_ v := by
  refine ⟨by decide, ?_⟩
  rintro ⟨q, hq, -⟩
  rw [TesseractPuzzle.rotateSlice_YW3] at hq
  exact Option.noConfusion hq

/-! ## Tesseract: one colour of each axis pair per vertex -/

namespace TesseractPuzzle

theorem new_onePerAxis (v : Fin 16) : (new.vertices_ v).onePerAxis := by
  have h : ∀ (v : Fin 16), (new.vertices_ v).values
      = (Finset.univ : Finset (Fin 4)).val.map (fun s => solvedTable v s) := by
    intro v
    unfold Vertex4D.values
    simp only [new_colors]
  unfold Vertex4D.onePerAxis
  rw [h]
  revert v
  decide

theorem rotateAt_onePerAxis (p : TesseractPuzzle) (idx : Fin 4 → Fin 16)
    (hidx : Function.Injective idx) (s0 s1 : Fin 4) (cw : Bool)
    (h : ∀ v, (p.vertices_ v).onePerAxis) (v : Fin 16) :
    ((rotateAt p idx s0 s1 cw).vertices_ v).onePerAxis := by
  unfold Vertex4D.onePerAxis
  rw [rotateAt_values p idx hidx s0 s1 cw v]
  exact h _

/-- Along every sequence of `rotateSlice` calls with planes in `0..5` and layers in `0..3`
that avoids layer 3 of `PLANE_YW`, each call succeeds and every vertex keeps exactly one
colour of each axis pair. -/
theorem rotateSlices_onePerAxis (ms : List (Int × Int × Bool)) :
    ∀ p : TesseractPuzzle, (∀ v, (p.vertices_ v).onePerAxis) →
      (∀ m ∈ ms, inRange m ∧ ¬ (m.1 = PLANE_YW ∧ m.2.1 = 3)) →
      ∃ q, rotateSlices p ms = some q ∧ ∀ v, (q.vertices_ v).onePerAxis := by
  induction ms with
  | nil => exact fun p hp _ => ⟨p, rfl, hp⟩
  | cons m ms ih =>
    intro p hp hms
    obtain ⟨plane, layer, cw⟩ := m
    obtain ⟨hr, hne⟩ := hms (plane, layer, cw) (List.mem_cons_self _ _)
    obtain ⟨idx, hidx, -, hrot⟩ := rotateSlice_eq_rotateAt plane layer hr.1 hr.2 hne
    obtain ⟨q, hq, hinv⟩ := ih (rotateAt p idx (getSlotSwap plane).1 (getSlotSwap plane).2 cw)
      (rotateAt_onePerAxis p idx hidx _ _ cw hp)
      (fun m hm => hms m (List.mem_cons_of_mem _ hm))
    exact ⟨q, by simp only [rotateSlices, hrot, Option.some_bind, hq], hinv⟩

end TesseractPuzzle

/-- C28, at the input where it fails: the one-call sequence `rotateSlice(PLANE_YW, 3, dir)`
has its plane in `0..5` and its layer in `0..3`, yet from the solved configuration it
reaches no state in which every vertex holds one colour of each axis pair: the call
indexes `vertices_[16]`. -/
theorem tesseract_onePerAxis_YW3_out_of_bounds (cw : Bool) :
    TesseractPuzzle.inRange (PLANE_YW, 3, cw) ∧
    (∀ v, (TesseractPuzzle.new.vertices_ v).onePerAxis) ∧
    ¬ ∃ q, TesseractPuzzle.rotateSlices TesseractPuzzle.new [(PLANE_YW, 3, cw)] = some q ∧
      ∀ v, (q.vertices_ v).onePerAxis := by
  have hr : (0 ≤ PLANE_YW ∧ PLANE_YW ≤ 5) ∧ ((0 : Int) ≤ 3 ∧ (3 : Int) ≤ 3) := by decide
  refine ⟨hr, TesseractPuzzle.new_onePerAxis, ?_⟩
  rintro ⟨q, hq, -⟩
  simp [TesseractPuzzle.rotateSlices, TesseractPuzzle.rotateSlice_YW3] at hq

/-! ## Rubik cube: the face grid, the strips of `rotateR`, and the sticker values -/

/-- C25: for every cube state and each face move `rotateR`, `rotateL`, `rotateU`,
`rotateD`, `rotateF`, `rotateB`, the grid of the moving face is rotated by the transpose
rule: the sticker at `[col][2 - row]` afterwards is the sticker at `[row][col]` before. -/
theorem rubik_face_grid_rotated (c : RubikCube) (row col : Fin 3) :
    c.rotateR.faces RIGHT col (twoMinus row) = c.faces RIGHT row col ∧
    c.rotateL.faces LEFT col (twoMinus row) = c.faces LEFT row col ∧
    c.rotateU.faces UP col (twoMinus row) = c.faces UP row col ∧
    c.rotateD.faces DOWN col (twoMinus row) = c.faces DOWN row col ∧
    c.rotateF.faces FRONT col (twoMinus row) = c.faces FRONT row col ∧
    c.rotateB.faces BACK col (twoMinus row) = c.faces BACK row col := by
  simp only [RubikCube.rotateR_eq_pull, RubikCube.rotateL_eq_pull, RubikCube.rotateU_eq_pull,
    RubikCube.rotateD_eq_pull, RubikCube.rotateF_eq_pull, RubikCube.rotateB_eq_pull]
  fin_cases row <;> fin_cases col <;> exact ⟨rfl, rfl, rfl, rfl, rfl, rfl⟩

/-- C26: for every cube state, `rotateR` cycles the four strips next to the Right face:
for `i` in `0..2` the new `UP[i][2]` is the old `FRONT[i][2]`, the new `FRONT[i][2]` the old
`DOWN[i][2]`, the new `DOWN[i][2]` the old `BACK[2-i][0]`, the new `BACK[2-i][0]` the old
`UP[i][2]`; and every sticker that is neither on the Right face nor in one of these four
strips is unchanged. -/
theorem rubik_rotateR_strips (c : RubikCube) :
    (∀ i : Fin 3,
      c.rotateR.faces UP i 2 = c.faces FRONT i 2 ∧
      c.rotateR.faces FRONT i 2 = c.faces DOWN i 2 ∧
      c.rotateR.faces DOWN i 2 = c.faces BACK (twoMinus i) 0 ∧
      c.rotateR.faces BACK (twoMinus i) 0 = c.faces UP i 2) ∧
    (∀ (f : Fin 6) (r k : Fin 3), f ≠ RIGHT →
      ¬ (f = UP ∧ k = 2) → ¬ (f = FRONT ∧ k = 2) → ¬ (f = DOWN ∧ k = 2) →
      ¬ (f = BACK ∧ k = 0) →
      c.rotateR.faces f r k = c.faces f r k) := by
  simp only [RubikCube.rotateR_eq_pull]
  refine ⟨fun i => ?_, fun f r k h0 h1 h2 h3 h4 => ?_⟩
  · fin_cases i <;> exact ⟨rfl, rfl, rfl, rfl⟩
  · fin_cases f <;> fin_cases r <;> fin_cases k <;>
      first
      | rfl
      | (exfalso; revert h0 h1 h2 h3 h4; decide)

namespace RubikCube

/-- Pulling back along a bijection of the 54 positions keeps the sticker values. -/
theorem stickerValues_pull (c : RubikCube) (σ : Fin 6 → Fin 3 → Fin 3 → Fin 6 × Fin 3 × Fin 3)
    (hσ : Function.Bijective (fun pos : Fin 6 × Fin 3 × Fin 3 => σ pos.1 pos.2.1 pos.2.2)) :
    stickerValues (pull c σ) = stickerValues c := by
  have hmap := Multiset.map_map (fun pos : Fin 6 × Fin 3 × Fin 3 => c.faces pos.1 pos.2.1 pos.2.2)
    (fun pos : Fin 6 × Fin 3 × Fin 3 => σ pos.1 pos.2.1 pos.2.2)
    (Finset.univ : Finset (Fin 6 × Fin 3 × Fin 3)).val
  rw [(Multiset.bijective_iff_map_univ_eq_univ _).mp hσ] at hmap
  unfold stickerValues
  rw [hmap]
  rfl

/-- A map on positions whose fourth iterate is the identity is a bijection. -/
theorem bijective_of_four (g : Fin 6 × Fin 3 × Fin 3 → Fin 6 × Fin 3 × Fin 3)
    (h : ∀ pos, g (g (g (g pos))) = pos) : Function.Bijective g :=
  Finite.injective_iff_bijective.mp
    (Function.LeftInverse.injective (g := fun pos => g (g (g pos))) h)

theorem stickerValues_rotateR (c : RubikCube) : stickerValues (rotateR c) = stickerValues c := by
  rw [rotateR_eq_pull]
  exact stickerValues_pull c _ (bijective_of_four _ (by decide))

theorem stickerValues_rotateL (c : RubikCube) : stickerValues (rotateL c) = stickerValues c := by
  rw [rotateL_eq_pull]
  exact stickerValues_pull c _ (bijective_of_four _ (by decide))

theorem stickerValues_rotateU (c : RubikCube) : stickerValues (rotateU c) = stickerValues c := by
  rw [rotateU_eq_pull]
  exact stickerValues_pull c _ (bijective_of_four _ (by decide))

theorem stickerValues_rotateD (c : RubikCube) : stickerValues (rotateD c) = stickerValues c := by
  rw [rotateD_eq_pull]
  exact stickerValues_pull c _ (bijective_of_four _ (by decide))

theorem stickerValues_rotateF (c : RubikCube) : stickerValues (rotateF c) = stickerValues c := by
  rw [rotateF_eq_pull]
  exact stickerValues_pull c _ (bijective_of_four _ (by decide))

theorem stickerValues_rotateB (c : RubikCube) : stickerValues (rotateB c) = stickerValues c := by
  rw [rotateB_eq_pull]
  exact stickerValues_pull c _ (bijective_of_four _ (by decide))

theorem stickerValues_move (c : RubikCube) (k : Fin 12) :
    stickerValues (move k c) = stickerValues c := by
  fin_cases k
  · exact stickerValues_rotateR c
  · show stickerValues (rotateR (rotateR (rotateR c))) = _
    rw [stickerValues_rotateR, stickerValues_rotateR, stickerValues_rotateR]
  · exact stickerValues_rotateL c
  · show stickerValues (rotateL (rotateL (rotateL c))) = _
    rw [stickerValues_rotateL, stickerValues_rotateL, stickerValues_rotateL]
  · exact stickerValues_rotateU c
  · show stickerValues (rotateU (rotateU (rotateU c))) = _
    rw [stickerValues_rotateU, stickerValues_rotateU, stickerValues_rotateU]
  · exact stickerValues_rotateD c
  · show stickerValues (rotateD (rotateD (rotateD c))) = _
    rw [stickerValues_rotateD, stickerValues_rotateD, stickerValues_rotateD]
  · exact stickerValues_rotateF c
  · show stickerValues (rotateF (rotateF (rotateF c))) = _
    rw [stickerValues_rotateF, stickerValues_rotateF, stickerValues_rotateF]
  · exact stickerValues_rotateB c
  · show stickerValues (rotateB (rotateB (rotateB c))) = _
    rw [stickerValues_rotateB, stickerValues_rotateB, stickerValues_rotateB]

theorem stickerValues_foldl (ks : List (Fin 12)) (c : RubikCube) :
    stickerValues (ks.foldl (fun st j => move j st) c) = stickerValues c := by
  induction ks generalizing c with
  | nil => rfl
  | cons k ks ih => rw [List.foldl_cons, ih, stickerValues_move]

end RubikCube

/-- C29: each of the twelve cube moves keeps the multiset of the 54 sticker values, for
every cube state; hence in every state reached from the constructed cube by any sequence
of the twelve moves, each of the six colours appears on exactly 9 stickers. -/
theorem rubik_moves_permute_stickers (c : RubikCube) (k : Fin 12) (ks : List (Fin 12)) :
    (RubikCube.move k c).stickerValues = c.stickerValues ∧
    (ks.foldl (fun st j => RubikCube.move j st) RubikCube.new).stickerValues
      = RubikCube.new.stickerValues ∧
    ∀ col : Fin 6,
      (ks.foldl (fun st j => RubikCube.move j st) RubikCube.new).stickerValues.count
        (col.val : Int) = 9 := by
  refine ⟨RubikCube.stickerValues_move c k, RubikCube.stickerValues_foldl ks _, ?_⟩
  rw [RubikCube.stickerValues_foldl]
  decide
